import Mathlib

/-!
Verification of the React reconciler core (src/react/reconcilation.js).

This file gives a shallow embedding of the reconciler data model and of the
operations that the checked properties are about, translated from the source
file, and proves or refutes each property.

Modelling conventions:
  - JS object identities (function values, context objects, abstract values)
    are represented by natural-number handles.
  - The mutable Reconciler instance state (componentTreeState, the memoization
    tables, the branch and closure queues, the statistics counters) is a
    record RState threaded explicitly through each operation.
  - A JS throw is an Except.error; since instance state mutations persist
    across a throw in the source, every operation returns its state (and the
    report node it mutates) alongside the Except result.
  - Functions imported from ./utils that are not part of this source file
    (getComponentTypeFromRootValue, getComponentName) are opaque oracle
    parameters bundled in the Oracles record.
-/

/-- Status tag of a report node (ReactEvaluatedNode in serializer/types). -/
inductive NodeStatus where
  | NORMAL
  | NEW_TREE
  | INLINED
  | BAIL_OUT
  | RENDER_PROPS
  | FORWARD_REF
deriving DecidableEq, Repr

/-- BranchStatusEnum from react/branching.js as used by the reconciler. -/
inductive BranchStatusEnum where
  | ROOT
  | NO_BRANCH
  | NEW_BRANCH
  | BRANCH
deriving DecidableEq, Repr

/-- ComponentTreeState.status values. -/
inductive TreeStatus where
  | SIMPLE
  | COMPLEX
deriving DecidableEq, Repr

/-- The treatFunctionsAs argument of findReactComponentTrees. -/
inductive TreatFunctionsAs where
  | NORMAL_FUNCTIONS
  | NESTED_CLOSURES
  | FUNCTIONAL_COMPONENTS
deriving DecidableEq, Repr

/-- The report tree (ReactEvaluatedNode): status, display name, message and
ordered children, mirroring the component invocation tree. -/
inductive EvaluatedNode where
  | node (status : NodeStatus) (name : String) (message : String)
      (children : List EvaluatedNode)

namespace EvaluatedNode

def status : EvaluatedNode → NodeStatus
  | node s _ _ _ => s

def name : EvaluatedNode → String
  | node _ n _ _ => n

def message : EvaluatedNode → String
  | node _ _ m _ => m

def children : EvaluatedNode → List EvaluatedNode
  | node _ _ _ c => c

def withStatus (st : NodeStatus) : EvaluatedNode → EvaluatedNode
  | node _ n m c => node st n m c

def withMessage (msg : String) : EvaluatedNode → EvaluatedNode
  | node s n _ c => node s n msg c

/-- JS push onto the children array of a report node. -/
def pushChild (child : EvaluatedNode) : EvaluatedNode → EvaluatedNode
  | node s n m c => node s n m (c ++ [child])

end EvaluatedNode

/-- createReactEvaluatedNode(status, name) from react/utils. -/
def createReactEvaluatedNode (status : NodeStatus) (name : String) : EvaluatedNode :=
  EvaluatedNode.node status name "" []

/-- The host value domain as seen by the reconciler: the value classes it
dispatches on. Elements carry their type, ref and props values directly
(the recognized element shape); ordinary objects carry a property list. -/
inductive RValue where
  | strV (s : String)
  | numV (n : Int)
  | boolV (b : Bool)
  | nullV
  | undefinedV
  | symbolV (id : Nat)
  | funcV (id : Nat) (isClassComponent : Bool)
  | boundFuncV (id : Nat) (isClassComponent : Bool)
  | abstractV (id : Nat) (isObjectLike : Bool) (args : List RValue)
  | elemV (id : Nat) (typeV : RValue) (refV : RValue) (propsV : RValue)
      (bailOutReason : Option String)
  | objV (id : Nat) (props : List (String × RValue))

namespace RValue

/-- value instanceof ObjectValue (elements are ObjectValues too). -/
def isObjectValue : RValue → Bool
  | elemV _ _ _ _ _ => true
  | objV _ _ => true
  | _ => false

/-- value instanceof AbstractObjectValue. -/
def isAbstractObjectValue : RValue → Bool
  | abstractV _ isObj _ => isObj
  | _ => false

/-- value instanceof ObjectValue, excluding the element shape: used where the
source tests a plain props object. In the source an element and a plain
object are the same class; the claims only ever apply this to props values,
which are never element-shaped, so the distinction is immaterial. -/
def isPlainObject : RValue → Bool
  | objV _ _ => true
  | _ => false

/-- value instanceof ECMAScriptSourceFunctionValue. -/
def isSourceFunction : RValue → Bool
  | funcV _ _ => true
  | _ => false

/-- Identity handle of an object-like value, used as a Map key. -/
def refKey : RValue → Nat
  | symbolV i => i
  | funcV i _ => i
  | boundFuncV i _ => i
  | abstractV i _ _ => i
  | elemV i _ _ _ _ => i
  | objV i _ => i
  | _ => 0

end RValue

open RValue

/-- Association-list lookup keyed by String (object property tables). -/
def lookupProp : List (String × RValue) → String → Option RValue
  | [], _ => none
  | (k, v) :: rest, key => if k = key then some v else lookupProp rest key

/-- getProperty / Get on the modelled values: a missing property reads as
undefined, matching the realm intrinsic undefined result. -/
def getProp (v : RValue) (key : String) : RValue :=
  match v, key with
  | elemV _ t _ _ _, "type" => t
  | elemV _ _ r _ _, "ref" => r
  | elemV _ _ _ p _, "props" => p
  | objV _ props, k => (lookupProp props k).getD undefinedV
  | _, _ => undefinedV

/-- Association-list lookup keyed by Nat (identity-keyed JS Maps). -/
def lookupAssoc {α : Type} : List (Nat × α) → Nat → Option α
  | [], _ => none
  | (k, v) :: rest, key => if k = key then some v else lookupAssoc rest key

/-- JS Map.set: replace the first binding of the key, else append. -/
def setAssoc {α : Type} : List (Nat × α) → Nat → α → List (Nat × α)
  | [], key, v => [(key, v)]
  | (k, w) :: rest, key, v =>
      if k = key then (k, v) :: rest else (k, w) :: setAssoc rest key v

/-- The per-fold mutable state (ComponentTreeState). contextNodeReferences is
an identity-keyed map to a JS number, modelled with Int. -/
structure ComponentTreeState where
  componentType : Option Nat
  contextTypes : List String
  deadEnds : Nat
  status : TreeStatus
  contextNodeReferences : List (Nat × Int)
deriving Repr

/-- _createComponentTreeState. -/
def createComponentTreeState : ComponentTreeState :=
  { componentType := none
    contextTypes := []
    deadEnds := 0
    status := TreeStatus.SIMPLE
    contextNodeReferences := [] }

/-- An OptimizedClosure record queued in nestedOptimizedClosures. -/
structure OptimizedClosure where
  evaluatedNode : EvaluatedNode
  func : Nat
  nestedEffects : List Unit
  componentType : Option RValue
  context : Option RValue

/-- A BranchReactComponentTree record queued in branchedComponentTrees. -/
structure BranchReactComponentTree where
  context : Option RValue
  evaluatedNode : EvaluatedNode
  props : Option RValue
  rootValue : RValue

/-- The componentTreeConfig and host-level react flags consulted by the
modelled operations. -/
structure RConfig where
  firstRenderOnly : Bool
  optimizeNestedFunctions : Bool
deriving DecidableEq, Repr

/-- Opaque imports from react/utils, not part of this source file, passed as
oracles: getComponentTypeFromRootValue, getComponentName, and the abstract
hint table consulted by valueIsKnownReactAbstraction (keyed by the identity
of an abstract object value). -/
structure Oracles where
  componentTypeFromRoot : RValue → Option Nat
  componentName : RValue → String
  knownAbstraction : Nat → Bool

/-- valueIsKnownReactAbstraction from react/utils: true only for an abstract
object value registered in the react abstract hints table. -/
def valueIsKnownReactAbstraction (o : Oracles) : RValue → Bool
  | RValue.abstractV i isObj _ => isObj && o.knownAbstraction i
  | _ => false

/-- The mutable Reconciler instance state threaded through the operations.
contextCurrentValues models the currentValue binding of each context object
(realm object state mutated through setContextCurrentValue). -/
structure RState where
  componentTreeState : ComponentTreeState
  alreadyEvaluatedRootNodes : List (Nat × EvaluatedNode)
  alreadyEvaluatedNestedClosures : List Nat
  nestedOptimizedClosures : List OptimizedClosure
  branchedComponentTrees : List BranchReactComponentTree
  contextCurrentValues : List (Nat × RValue)
  inlinedComponents : Nat
  componentsEvaluated : Nat

/-- The error taxonomy raised and caught by the reconciler. jsCompletion is a
host-level thrown value carrying its message and stack strings. -/
inductive RError where
  | invariantViolation (msg : String)
  | reconcilerFatalError (msg : String) (evaluatedNode : EvaluatedNode)
  | unsupportedSideEffect (msg : String)
  | doNotOptimize (msg : String)
  | jsCompletion (message : String) (stack : String)
  | expectedBailOut (msg : String)
  | fatalError (msg : String)
  | newComponentTreeBranch (evaluatedNode : EvaluatedNode)
  | simpleClassBailOut

namespace RError

def isFatal : RError → Bool
  | reconcilerFatalError _ _ => true
  | _ => false

end RError

/-! ## Context reference tracking and context current values -/

/-- _incremementReferenceForContextNode (source line 474): a missing or falsy
(zero) count becomes 1, otherwise the count is incremented. -/
def incremementReferenceForContextNode (s : ComponentTreeState) (contextNode : Nat) :
    ComponentTreeState :=
  let references :=
    match lookupAssoc s.contextNodeReferences contextNode with
    | none => 1
    | some r => if r = 0 then 1 else r + 1
  { s with contextNodeReferences := setAssoc s.contextNodeReferences contextNode references }

/-- _decremementReferenceForContextNode (source line 464): a missing or falsy
(zero) count becomes 0, otherwise the count is decremented. -/
def decremementReferenceForContextNode (s : ComponentTreeState) (contextNode : Nat) :
    ComponentTreeState :=
  let references :=
    match lookupAssoc s.contextNodeReferences contextNode with
    | none => 0
    | some r => if r = 0 then 0 else r - 1
  { s with contextNodeReferences := setAssoc s.contextNodeReferences contextNode references }

/-- _hasReferenceForContextNode (source line 484). -/
def hasReferenceForContextNode (s : ComponentTreeState) (contextNode : Nat) : Bool :=
  match lookupAssoc s.contextNodeReferences contextNode with
  | none => false
  | some r => if r = 0 then false else decide (r > 0)

/-- The effective reference count of a context node: a missing entry reads as
zero, matching the falsy check the source applies to Map.get results. -/
def effectiveRef (s : ComponentTreeState) (contextNode : Nat) : Int :=
  (lookupAssoc s.contextNodeReferences contextNode).getD 0

/-- setContextCurrentValue (source line 110): writes the currentValue binding
of a concrete context object; a non-object context is an expected bail-out and
a missing binding is an invariant violation. The unwrapping of an abstract
object with a known element set is not modelled (it only rebinds
contextObject to a concrete element before the same logic). -/
def setContextCurrentValue (contextObject : RValue) (value : RValue) (s : RState) :
    Except RError Unit × RState :=
  match contextObject with
  | objV cid _ =>
      if (lookupAssoc s.contextCurrentValues cid).isSome then
        (Except.ok (), { s with contextCurrentValues := setAssoc s.contextCurrentValues cid value })
      else
        (Except.error (RError.invariantViolation "setContextCurrentValue failed to set the currentValue"), s)
  | _ =>
      (Except.error (RError.expectedBailOut "cannot set currentValue on an abstract context consumer"), s)

/-- getProperty(contextConsumer, "currentValue"): reads the binding modelled
in contextCurrentValues; a missing binding reads as undefined. -/
def getContextCurrentValue (contextObject : RValue) (s : RState) : RValue :=
  (lookupAssoc s.contextCurrentValues contextObject.refKey).getD undefinedV

/-! ## Queues and memoization tables -/

/-- _queueOptimizedClosure (source line 289): appends a record with empty
nestedEffects when the host-level optimizeNestedFunctions flag is enabled;
otherwise does nothing. -/
def queueOptimizedClosure (cfg : RConfig) (func : Nat) (evaluatedNode : EvaluatedNode)
    (componentType : Option RValue) (context : Option RValue) (s : RState) : RState :=
  if cfg.optimizeNestedFunctions then
    { s with nestedOptimizedClosures :=
        s.nestedOptimizedClosures ++
          [{ evaluatedNode := evaluatedNode
             func := func
             nestedEffects := []
             componentType := componentType
             context := context }] }
  else s

/-- hasEvaluatedRootNode (source line 1368): when the component identity is in
alreadyEvaluatedRootNodes, copies the memoized children, status and name onto
the supplied report node and returns true; otherwise returns false with the
node untouched. -/
def hasEvaluatedRootNode (s : RState) (componentType : Nat) (evaluateNode : EvaluatedNode) :
    Bool × EvaluatedNode :=
  match lookupAssoc s.alreadyEvaluatedRootNodes componentType with
  | some alreadyEvaluatedNode =>
      (true,
        EvaluatedNode.node alreadyEvaluatedNode.status alreadyEvaluatedNode.name
          evaluateNode.message alreadyEvaluatedNode.children)
  | none => (false, evaluateNode)

/-- hasEvaluatedNestedClosure (source line 1380). -/
def hasEvaluatedNestedClosure (s : RState) (func : Nat) : Bool :=
  s.alreadyEvaluatedNestedClosures.contains func

/-- _queueNewComponentTree (source line 306): a SymbolValue is silently
ignored; a source function or abstract value increments deadEnds and appends
a branch record only when getComponentTypeFromRootValue yields a component
identity that is not already memoized as a root (the memoization check also
copies the memoized report fields onto the supplied node); any other value
kind fails the invariant guard before any mutation. -/
def queueNewComponentTree (o : Oracles) (rootValue : RValue)
    (evaluatedNode : EvaluatedNode) (props : Option RValue) (context : Option RValue)
    (s : RState) : Except RError Unit × EvaluatedNode × RState :=
  match rootValue with
  | symbolV _ => (Except.ok (), evaluatedNode, s)
  | funcV _ _ | abstractV _ _ _ =>
      let s :=
        { s with componentTreeState :=
            { s.componentTreeState with deadEnds := s.componentTreeState.deadEnds + 1 } }
      match o.componentTypeFromRoot rootValue with
      | some componentType =>
          let (found, evaluatedNode) := hasEvaluatedRootNode s componentType evaluatedNode
          if found then
            (Except.ok (), evaluatedNode, s)
          else
            (Except.ok (), evaluatedNode,
              { s with branchedComponentTrees :=
                  s.branchedComponentTrees ++
                    [{ context := context
                       evaluatedNode := evaluatedNode
                       props := props
                       rootValue := rootValue }] })
      | none => (Except.ok (), evaluatedNode, s)
  | _ =>
      (Except.error (RError.invariantViolation
          "rootValue must be an ECMAScriptSourceFunctionValue or AbstractValue"),
        evaluatedNode, s)

/-! ## Bail-out message assignment -/

/-- _assignBailOutMessage (source line 1330) acting on the stored
BailOutReason field: prefixes the message and comma-joins it onto an already
present reason. -/
def assignBailOutMessage (bailOutReason : Option String) (message : String) : Option String :=
  let message := "Bail-out: " ++ message
  match bailOutReason with
  | some existing => some (existing ++ ", " ++ message)
  | none => some message

/-- _assignBailOutMessage acting on a react element value: updates its
BailOutReason field; non-element values are untouched (the source only ever
applies it to elements). -/
def assignBailOutMessageElem (reactElement : RValue) (message : String) : RValue :=
  match reactElement with
  | elemV i t r p reason => elemV i t r p (assignBailOutMessage reason message)
  | v => v

/-! ## Searching values for nested component trees -/

/-- Result triple of the tree-searching and element-resolving operations:
outcome, the mutated report node, and the mutated instance state. -/
abbrev FindResult := Except RError Unit × EvaluatedNode × RState

mutual

/-- _findReactComponentTrees (source line 1384): walks a value looking for
queueable component trees or nested closures. Abstract values recurse into
their arguments (an argument-less abstract value is a dead end); class-shaped
functions (or any function under FUNCTIONAL_COMPONENTS) are queued as new
trees; functions under NESTED_CLOSURES are queued as optimized closures;
elements queue their type when it is a known abstraction or a source function
and then recurse into ref and props; other objects recurse into their
enumerable properties. -/
def findReactComponentTrees (o : Oracles) (cfg : RConfig) (value : RValue)
    (evaluatedNode : EvaluatedNode) (treatFunctionsAs : TreatFunctionsAs)
    (componentType : Option RValue) (context : Option RValue) (s : RState) :
    FindResult :=
  match value with
  | abstractV _ _ args =>
      if args.length > 0 then
        findReactComponentTreesList o cfg args evaluatedNode treatFunctionsAs componentType context s
      else
        (Except.ok (), evaluatedNode,
          { s with componentTreeState :=
              { s.componentTreeState with deadEnds := s.componentTreeState.deadEnds + 1 } })
  | funcV _ isClass =>
      findReactComponentTreesFunc o cfg value isClass evaluatedNode treatFunctionsAs componentType context s
  | boundFuncV _ isClass =>
      findReactComponentTreesFunc o cfg value isClass evaluatedNode treatFunctionsAs componentType context s
  | elemV _ typeV refV propsV _ =>
      let step :=
        if valueIsKnownReactAbstraction o typeV || typeV.isSourceFunction then
          let evaluatedChildNode := createReactEvaluatedNode NodeStatus.NEW_TREE (o.componentName typeV)
          let (e, evaluatedChildNode, s) := queueNewComponentTree o typeV evaluatedChildNode none none s
          (e, evaluatedNode.pushChild evaluatedChildNode, s)
        else (Except.ok (), evaluatedNode, s)
      match step with
      | (Except.ok _, evaluatedNode, s) =>
          match findReactComponentTrees o cfg refV evaluatedNode treatFunctionsAs componentType context s with
          | (Except.ok _, evaluatedNode, s) =>
              findReactComponentTrees o cfg propsV evaluatedNode treatFunctionsAs componentType context s
          | r => r
      | r => r
  | objV _ props =>
      findReactComponentTreesProps o cfg props evaluatedNode treatFunctionsAs componentType context s
  | _ => (Except.ok (), evaluatedNode, s)

/-- The function-value arm of _findReactComponentTrees (source line 1403). -/
def findReactComponentTreesFunc (o : Oracles) (cfg : RConfig) (value : RValue)
    (isClass : Bool) (evaluatedNode : EvaluatedNode) (treatFunctionsAs : TreatFunctionsAs)
    (componentType : Option RValue) (context : Option RValue) (s : RState) :
    FindResult :=
  if isClass || treatFunctionsAs = TreatFunctionsAs.FUNCTIONAL_COMPONENTS then
    let evaluatedChildNode := createReactEvaluatedNode NodeStatus.NEW_TREE (o.componentName value)
    let (e, evaluatedChildNode, s) := queueNewComponentTree o value evaluatedChildNode none none s
    (e, evaluatedNode.pushChild evaluatedChildNode, s)
  else if treatFunctionsAs = TreatFunctionsAs.NESTED_CLOSURES then
    match componentType, context with
    | some _, some _ =>
        (Except.ok (), evaluatedNode,
          queueOptimizedClosure cfg value.refKey evaluatedNode componentType context s)
    | _, _ =>
        (Except.error (RError.invariantViolation "componentType and context must be set"),
          evaluatedNode, s)
  else (Except.ok (), evaluatedNode, s)

/-- Recursion of _findReactComponentTrees over abstract-value arguments. -/
def findReactComponentTreesList (o : Oracles) (cfg : RConfig) (values : List RValue)
    (evaluatedNode : EvaluatedNode) (treatFunctionsAs : TreatFunctionsAs)
    (componentType : Option RValue) (context : Option RValue) (s : RState) :
    FindResult :=
  match values with
  | [] => (Except.ok (), evaluatedNode, s)
  | v :: rest =>
      match findReactComponentTrees o cfg v evaluatedNode treatFunctionsAs componentType context s with
      | (Except.ok _, evaluatedNode, s) =>
          findReactComponentTreesList o cfg rest evaluatedNode treatFunctionsAs componentType context s
      | r => r

/-- Recursion of _findReactComponentTrees over enumerable object properties
(all modelled properties are enumerable data properties). -/
def findReactComponentTreesProps (o : Oracles) (cfg : RConfig)
    (props : List (String × RValue)) (evaluatedNode : EvaluatedNode)
    (treatFunctionsAs : TreatFunctionsAs) (componentType : Option RValue)
    (context : Option RValue) (s : RState) : FindResult :=
  match props with
  | [] => (Except.ok (), evaluatedNode, s)
  | (_, v) :: rest =>
      match findReactComponentTrees o cfg v evaluatedNode treatFunctionsAs componentType context s with
      | (Except.ok _, evaluatedNode, s) =>
          findReactComponentTreesProps o cfg rest evaluatedNode treatFunctionsAs componentType context s
      | r => r

end

/-! ## Context provider resolution -/

/-- _resolveContextProviderComponent (source line 404). The recursive
resolution of the host children (_resolveReactElementHostChildren, which
descends through _resolveDeeply) is passed in as resolveHostChildren; it
receives the element and the Context.Provider report child node and returns
its outcome together with the mutated node and state. The source pushes the
child node and later mutates it in place; the model attaches the final child
on every exit path, which is observationally the same since nothing reads the
parent node in between. Faithful to the source, no decrement or value
restore happens when the children resolution exits with an error. -/
def resolveContextProviderComponent
    (cfg : RConfig)
    (resolveHostChildren : RValue → EvaluatedNode → RState →
      Except RError RValue × EvaluatedNode × RState)
    (reactElement : RValue) (evaluatedNode : EvaluatedNode) (s : RState) :
    Except RError RValue × EvaluatedNode × RState :=
  let typeValue := getProp reactElement "type"
  let propsValue := getProp reactElement "props"
  let evaluatedChildNode := createReactEvaluatedNode NodeStatus.NORMAL "Context.Provider"
  let s := { s with componentsEvaluated := s.componentsEvaluated + 1 }
  if !(typeValue.isObjectValue || typeValue.isAbstractObjectValue) then
    (Except.error (RError.invariantViolation "provider type must be an object value"),
      evaluatedNode.pushChild evaluatedChildNode, s)
  else
    let contextConsumer := getProp typeValue "context"
    if !(contextConsumer.isObjectValue || contextConsumer.isAbstractObjectValue) then
      (Except.error (RError.invariantViolation "provider context must be an object value"),
        evaluatedNode.pushChild evaluatedChildNode, s)
    else
      let lastValueProp := getContextCurrentValue contextConsumer s
      let s := { s with componentTreeState :=
          incremementReferenceForContextNode s.componentTreeState contextConsumer.refKey }
      let setStep : Except RError Unit × RState :=
        if propsValue.isObjectValue || propsValue.isAbstractObjectValue then
          setContextCurrentValue contextConsumer (getProp propsValue "value") s
        else (Except.ok (), s)
      match setStep with
      | (Except.error e, s) => (Except.error e, evaluatedNode.pushChild evaluatedChildNode, s)
      | (Except.ok _, s) =>
        if cfg.firstRenderOnly && propsValue.isPlainObject then
          match resolveHostChildren reactElement evaluatedChildNode s with
          | (Except.error e, evaluatedChildNode, s) =>
              (Except.error e, evaluatedNode.pushChild evaluatedChildNode, s)
          | (Except.ok resolvedReactElement, evaluatedChildNode, s) =>
            let resolvedPropsValue := getProp resolvedReactElement "props"
            if !(resolvedPropsValue.isObjectValue || resolvedPropsValue.isAbstractObjectValue) then
              (Except.error (RError.invariantViolation "resolved props must be an object value"),
                evaluatedNode.pushChild evaluatedChildNode, s)
            else
              match setContextCurrentValue contextConsumer lastValueProp s with
              | (Except.error e, s) => (Except.error e, evaluatedNode.pushChild evaluatedChildNode, s)
              | (Except.ok _, s) =>
                let s := { s with componentTreeState :=
                    decremementReferenceForContextNode s.componentTreeState contextConsumer.refKey }
                if s.componentTreeState.deadEnds = 0 then
                  let childrenValue := getProp resolvedPropsValue "children"
                  let evaluatedChildNode := evaluatedChildNode.withStatus NodeStatus.INLINED
                  let s := { s with inlinedComponents := s.inlinedComponents + 1 }
                  (Except.ok childrenValue, evaluatedNode.pushChild evaluatedChildNode, s)
                else
                  (Except.ok resolvedReactElement, evaluatedNode.pushChild evaluatedChildNode, s)
        else
          match resolveHostChildren reactElement evaluatedChildNode s with
          | (Except.error e, evaluatedChildNode, s) =>
              (Except.error e, evaluatedNode.pushChild evaluatedChildNode, s)
          | (Except.ok children, evaluatedChildNode, s) =>
            match setContextCurrentValue contextConsumer lastValueProp s with
            | (Except.error e, s) => (Except.error e, evaluatedNode.pushChild evaluatedChildNode, s)
            | (Except.ok _, s) =>
              let s := { s with componentTreeState :=
                  decremementReferenceForContextNode s.componentTreeState contextConsumer.refKey }
              (Except.ok children, evaluatedNode.pushChild evaluatedChildNode, s)

/-! ## Complex class component resolution -/

/-- _resolveComplexClassComponent (source line 328), up to the point where the
class instance is created and its render method invoked (createClassInstance
and getValueFromFunctionCall live outside this source file); an ok result
means resolution proceeds to that render invocation. At a non-root position
the component is absorbed as the effective tree root exactly when the branch
status is NO_BRANCH, the tree is still SIMPLE, and the component already has a
memoized root node whose status is not RENDER_PROPS; otherwise it is queued as
a new root and a NewComponentTreeBranch carrying the NEW_TREE-tagged node is
thrown. Whenever resolution proceeds, the tree status becomes COMPLEX. -/
def resolveComplexClassComponent (o : Oracles) (componentType : Nat)
    (branchStatus : BranchStatusEnum) (evaluatedNode : EvaluatedNode) (s : RState) :
    Except RError Unit × EvaluatedNode × RState :=
  let step : Except RError Unit × EvaluatedNode × RState :=
    if branchStatus != BranchStatusEnum.ROOT then
      let eligible :=
        branchStatus == BranchStatusEnum.NO_BRANCH &&
        s.componentTreeState.status == TreeStatus.SIMPLE &&
        (match lookupAssoc s.alreadyEvaluatedRootNodes componentType with
         | some evaluatedComplexNode => evaluatedComplexNode.status != NodeStatus.RENDER_PROPS
         | none => false)
      if eligible then
        (Except.ok (), evaluatedNode,
          { s with componentTreeState :=
              { s.componentTreeState with componentType := some componentType } })
      else
        let (_, evaluatedNode, s) :=
          queueNewComponentTree o (funcV componentType true) evaluatedNode none none s
        let evaluatedNode := evaluatedNode.withStatus NodeStatus.NEW_TREE
        (Except.error (RError.newComponentTreeBranch evaluatedNode), evaluatedNode, s)
    else (Except.ok (), evaluatedNode, s)
  match step with
  | (Except.ok _, evaluatedNode, s) =>
      (Except.ok (), evaluatedNode,
        { s with componentTreeState :=
            { s.componentTreeState with status := TreeStatus.COMPLEX } })
  | r => r

/-! ## Failure handling -/

/-- _handleComponentTreeRootFailure (source line 1194): classifies an error
escaping a root fold and always rethrows; the returned value is the error the
source throws. Invariant violations rethrow unchanged; fatal, side-effect,
do-not-optimize, host-exception, expected-bail-out and evaluation-fatal
errors all become a ReconcilerFatalError carrying the root report node; any
other kind rethrows unchanged. -/
def handleComponentTreeRootFailure (error : RError) (evaluatedRootNode : EvaluatedNode) :
    RError :=
  match error with
  | RError.invariantViolation m => RError.invariantViolation m
  | RError.reconcilerFatalError m _ => RError.reconcilerFatalError m evaluatedRootNode
  | RError.unsupportedSideEffect m =>
      RError.reconcilerFatalError
        ("Failed to render React component root \"" ++ evaluatedRootNode.name ++
          "\" due to " ++ m)
        evaluatedRootNode
  | RError.doNotOptimize m =>
      RError.reconcilerFatalError
        ("Failed to render React component root \"" ++ evaluatedRootNode.name ++
          "\" due to " ++ m)
        evaluatedRootNode
  | RError.jsCompletion message stack =>
      RError.reconcilerFatalError
        ("Failed to render React component \"" ++ evaluatedRootNode.name ++
          "\" due to a JS error: " ++ message ++ "\n" ++ stack)
        evaluatedRootNode
  | RError.expectedBailOut m =>
      RError.reconcilerFatalError
        ("Failed to optimize React component tree for \"" ++ evaluatedRootNode.name ++
          "\" due to an expected bail-out: " ++ m)
        evaluatedRootNode
  | RError.fatalError m =>
      RError.reconcilerFatalError
        ("Failed to optimize React component tree for \"" ++ evaluatedRootNode.name ++
          "\" due to a fatal error during evaluation: " ++ m)
        evaluatedRootNode
  | e => e

/-- _resolveComponentResolutionFailure (source line 1234): the per-element
recovery boundary. Invariant violations and reconciler-fatal errors rethrow;
unsupported side effects and host exceptions escalate to a fatal error; a
DoNotOptimize returns the element unresolved and untouched; a
NewComponentTreeBranch searches props for additional trees and attaches the
signalled report node; expected bail-outs and evaluation failures queue the
element type as a new root, search props, annotate the element, and return it
unresolved; anything else rethrows after tagging the child node. Later
in-place mutations of a report node that was already stored into a queue are
not propagated to the queued snapshot in this model. -/
def resolveComponentResolutionFailure (o : Oracles) (cfg : RConfig) (error : RError)
    (reactElement : RValue) (evaluatedNode : EvaluatedNode)
    (_branchStatus : BranchStatusEnum) (s : RState) :
    Except RError RValue × EvaluatedNode × RState :=
  match error with
  | RError.invariantViolation m =>
      (Except.error (RError.invariantViolation m), evaluatedNode, s)
  | RError.reconcilerFatalError m n =>
      (Except.error (RError.reconcilerFatalError m n), evaluatedNode, s)
  | RError.unsupportedSideEffect m =>
      (Except.error (RError.reconcilerFatalError
          ("Failed to render React component \"" ++ evaluatedNode.name ++ "\" due to " ++ m)
          evaluatedNode),
        evaluatedNode, s)
  | RError.doNotOptimize _ => (Except.ok reactElement, evaluatedNode, s)
  | RError.jsCompletion message stack =>
      (Except.error (RError.reconcilerFatalError
          ("Failed to render React component \"" ++ evaluatedNode.name ++
            "\" due to a JS error: " ++ message ++ "\n" ++ stack)
          evaluatedNode),
        evaluatedNode, s)
  | RError.newComponentTreeBranch errorNode =>
      let propsValue := getProp reactElement "props"
      match findReactComponentTrees o cfg propsValue evaluatedNode
          TreatFunctionsAs.NORMAL_FUNCTIONS none none s with
      | (Except.ok _, evaluatedNode, s) =>
          (Except.ok reactElement, evaluatedNode.pushChild errorNode, s)
      | (Except.error e, evaluatedNode, s) => (Except.error e, evaluatedNode, s)
  | err =>
      let typeValue := getProp reactElement "type"
      let propsValue := getProp reactElement "props"
      let evaluatedChildNode :=
        createReactEvaluatedNode NodeStatus.BAIL_OUT (o.componentName typeValue)
      match queueNewComponentTree o typeValue evaluatedChildNode none none s with
      | (Except.error e, evaluatedChildNode, s) =>
          (Except.error e, evaluatedNode.pushChild evaluatedChildNode, s)
      | (Except.ok _, evaluatedChildNode, s) =>
        let outcome : Except RError RValue × EvaluatedNode :=
          match err with
          | RError.expectedBailOut m =>
              (Except.ok (assignBailOutMessageElem reactElement m),
                evaluatedChildNode.withMessage m)
          | RError.fatalError _ =>
              (Except.ok (assignBailOutMessageElem reactElement "evaluation failed"),
                evaluatedChildNode.withMessage "evaluation failed")
          | e => (Except.error e, evaluatedChildNode.withMessage "unknown error")
        match findReactComponentTrees o cfg propsValue
            (evaluatedNode.pushChild outcome.2) TreatFunctionsAs.NORMAL_FUNCTIONS
            none none s with
        | (Except.ok _, evaluatedNode, s) => (outcome.1, evaluatedNode, s)
        | (Except.error e, evaluatedNode, s) => (Except.error e, evaluatedNode, s)

/-! ## Undefined render result -/

/-- _resolveReactElementUndefinedRender (source line 982): annotates the
element with the bail-out message, attaches a BAIL-OUT child report node
named after the element type, searches the props for further nested component
trees, and returns the element unresolved. -/
def resolveReactElementUndefinedRender (o : Oracles) (cfg : RConfig)
    (reactElement : RValue) (evaluatedNode : EvaluatedNode)
    (_branchStatus : BranchStatusEnum) (s : RState) :
    Except RError RValue × EvaluatedNode × RState :=
  let typeValue := getProp reactElement "type"
  let propsValue := getProp reactElement "props"
  let bailOutMessage := "undefined was returned from render"
  let evaluatedChildNode :=
    (createReactEvaluatedNode NodeStatus.BAIL_OUT (o.componentName typeValue)).withMessage
      bailOutMessage
  let reactElement := assignBailOutMessageElem reactElement bailOutMessage
  match findReactComponentTrees o cfg propsValue
      (evaluatedNode.pushChild evaluatedChildNode) TreatFunctionsAs.NORMAL_FUNCTIONS
      none none s with
  | (Except.ok _, evaluatedNode, s) => (Except.ok reactElement, evaluatedNode, s)
  | (Except.error e, evaluatedNode, s) => (Except.error e, evaluatedNode, s)

/-- The tail of _resolveReactElement (source line 1182): a strategy that
returned no result stands for the element itself, and a strategy result that
is the undefined value routes to _resolveReactElementUndefinedRender;
otherwise the resolved result is returned. -/
def dispatchComponentStrategyResult (o : Oracles) (cfg : RConfig)
    (result : Option RValue) (reactElement : RValue) (evaluatedNode : EvaluatedNode)
    (branchStatus : BranchStatusEnum) (s : RState) :
    Except RError RValue × EvaluatedNode × RState :=
  let result := match result with | none => reactElement | some v => v
  match result with
  | undefinedV =>
      resolveReactElementUndefinedRender o cfg reactElement evaluatedNode branchStatus s
  | v => (Except.ok v, evaluatedNode, s)

/-! ## The primitive mutations of ComponentTreeState -/

/-- Every mutation the source applies to an existing ComponentTreeState
within a fold: deadEnds increments (lines 316, 535, 596, 943, 962, 1397),
setting the effective root component (line 346), promoting the status to
COMPLEX (line 353), recording a used context type (line 720), and the context
reference increments and decrements (lines 421, 441, 460). -/
inductive CStateOp where
  | incDeadEnds
  | setComponentType (componentType : Nat)
  | setStatusComplex
  | addContextType (contextType : String)
  | incContextRef (contextNode : Nat)
  | decContextRef (contextNode : Nat)

/-- Effect of one primitive mutation on the ComponentTreeState. -/
def applyCStateOp (op : CStateOp) (s : ComponentTreeState) : ComponentTreeState :=
  match op with
  | CStateOp.incDeadEnds => { s with deadEnds := s.deadEnds + 1 }
  | CStateOp.setComponentType ct => { s with componentType := some ct }
  | CStateOp.setStatusComplex => { s with status := TreeStatus.COMPLEX }
  | CStateOp.addContextType t => { s with contextTypes := s.contextTypes ++ [t] }
  | CStateOp.incContextRef c => incremementReferenceForContextNode s c
  | CStateOp.decContextRef c => decremementReferenceForContextNode s c

/-! ## Helper predicates and concrete fixtures -/

/-- Outcome check for a modelled result. -/
def isOkResult {A : Type} : Except RError A → Bool
  | Except.ok _ => true
  | Except.error _ => false

/-- The invariant guard of _queueNewComponentTree (source line 315): the root
value must be a source function value or an abstract value. -/
def isFunctionOrAbstract : RValue → Bool
  | funcV _ _ => true
  | abstractV _ _ _ => true
  | _ => false

/-- A concrete oracle assignment: function identities resolve to themselves,
nothing is a known react abstraction. -/
def oracleFixture : Oracles :=
  { componentTypeFromRoot := fun v => match v with | funcV i _ => some i | _ => none
    componentName := fun _ => "Component"
    knownAbstraction := fun _ => false }

/-- Config with first-render-only off and nested-function optimization on. -/
def configFixture : RConfig :=
  { firstRenderOnly := false, optimizeNestedFunctions := true }

/-- Config with first-render-only on and nested-function optimization on. -/
def configFirstRender : RConfig :=
  { firstRenderOnly := true, optimizeNestedFunctions := true }

/-- A fresh Reconciler state at the beginning of a fold. -/
def emptyRState : RState :=
  { componentTreeState := createComponentTreeState
    alreadyEvaluatedRootNodes := []
    alreadyEvaluatedNestedClosures := []
    nestedOptimizedClosures := []
    branchedComponentTrees := []
    contextCurrentValues := []
    inlinedComponents := 0
    componentsEvaluated := 0 }

/-- A fresh state in which context object 2 holds currentValue 7. -/
def stateWithContext : RState :=
  { emptyRState with contextCurrentValues := [(2, numV 7)] }

/-- A root report node. -/
def appNode : EvaluatedNode := createReactEvaluatedNode NodeStatus.NORMAL "App"

/-- A provider element: type is provider object 1 whose context is context
object 2; props is a concrete object with a value and children. -/
def providerElement : RValue :=
  elemV 0 (objV 1 [("context", objV 2 [])]) nullV
    (objV 3 [("value", numV 1), ("children", strV "kid")]) none

/-- A provider element whose props value is an abstract object value. -/
def providerElementAbstractProps : RValue :=
  elemV 0 (objV 1 [("context", objV 2 [])]) nullV (abstractV 9 true []) none

/-- A children resolution that succeeds and returns the element unchanged. -/
def resolveChildrenOk :
    RValue → EvaluatedNode → RState → Except RError RValue × EvaluatedNode × RState :=
  fun el n s => (Except.ok el, n, s)

/-- A children resolution that raises an expected bail-out. -/
def resolveChildrenFail :
    RValue → EvaluatedNode → RState → Except RError RValue × EvaluatedNode × RState :=
  fun _ n s => (Except.error (RError.expectedBailOut "failed to resolve children"), n, s)

/-- A children resolution that succeeds, returning the fixture provider
element (whose props value is a concrete object). -/
def resolveChildrenConst :
    RValue → EvaluatedNode → RState → Except RError RValue × EvaluatedNode × RState :=
  fun _ n s =>
    (Except.ok (elemV 0 (objV 1 [("context", objV 2 [])]) nullV
      (objV 3 [("value", numV 1), ("children", strV "kid")]) none), n, s)

/-! ## Basic lemmas about the association maps and reference counts -/

theorem lookupAssoc_setAssoc_self {α : Type} (m : List (Nat × α)) (k : Nat) (v : α) :
    lookupAssoc (setAssoc m k v) k = some v := by
  induction m with
  | nil => simp [setAssoc, lookupAssoc]
  | cons p rest ih =>
      obtain ⟨k2, w⟩ := p
      by_cases h : k2 = k
      · simp [setAssoc, lookupAssoc, h]
      · simp [setAssoc, lookupAssoc, h, ih]

theorem mem_setAssoc {α : Type} (m : List (Nat × α)) (k : Nat) (v : α) (p : Nat × α)
    (h : p ∈ setAssoc m k v) : p ∈ m ∨ p = (k, v) := by
  induction m with
  | nil => simpa [setAssoc] using h
  | cons q rest ih =>
      obtain ⟨k2, w⟩ := q
      by_cases hk : k2 = k
      · simp only [setAssoc, if_pos hk] at h
        rcases List.mem_cons.mp h with h1 | h1
        · right; rw [h1, hk]
        · left; exact List.mem_cons_of_mem _ h1
      · simp only [setAssoc, if_neg hk] at h
        rcases List.mem_cons.mp h with h1 | h1
        · left; rw [h1]; exact List.mem_cons_self _ _
        · rcases ih h1 with h2 | h2
          · left; exact List.mem_cons_of_mem _ h2
          · right; exact h2

/-- Reference-count value written by an increment, in terms of the effective
count read through the falsy check. -/
theorem incremementReference_lookup (s : ComponentTreeState) (c : Nat) :
    lookupAssoc (incremementReferenceForContextNode s c).contextNodeReferences c =
      some (if effectiveRef s c = 0 then 1 else effectiveRef s c + 1) := by
  unfold incremementReferenceForContextNode effectiveRef
  cases h : lookupAssoc s.contextNodeReferences c with
  | none => simp [h, lookupAssoc_setAssoc_self]
  | some r =>
      by_cases hr : r = 0 <;> simp [h, hr, lookupAssoc_setAssoc_self]

theorem decremementReference_lookup (s : ComponentTreeState) (c : Nat) :
    lookupAssoc (decremementReferenceForContextNode s c).contextNodeReferences c =
      some (if effectiveRef s c = 0 then 0 else effectiveRef s c - 1) := by
  unfold decremementReferenceForContextNode effectiveRef
  cases h : lookupAssoc s.contextNodeReferences c with
  | none => simp [h, lookupAssoc_setAssoc_self]
  | some r =>
      by_cases hr : r = 0 <;> simp [h, hr, lookupAssoc_setAssoc_self]

theorem lookupAssoc_mem {α : Type} (m : List (Nat × α)) (k : Nat) (v : α)
    (h : lookupAssoc m k = some v) : (k, v) ∈ m := by
  induction m with
  | nil => simp [lookupAssoc] at h
  | cons p rest ih =>
      obtain ⟨k2, w⟩ := p
      by_cases hk : k2 = k
      · simp only [lookupAssoc, if_pos hk] at h
        subst hk
        rw [Option.some_inj] at h
        subst h
        exact List.mem_cons_self _ _
      · simp only [lookupAssoc, if_neg hk] at h
        exact List.mem_cons_of_mem _ (ih h)

/-- Decrementing a context reference count leaves deadEnds unchanged. -/
theorem decremementReference_deadEnds (s : ComponentTreeState) (c : Nat) :
    (decremementReferenceForContextNode s c).deadEnds = s.deadEnds := rfl

/-- All tracked context reference counts are non-negative. -/
def NonNegRefs (s : ComponentTreeState) : Prop :=
  ∀ p ∈ s.contextNodeReferences, 0 ≤ p.2

theorem nonNegRefs_incremement (s : ComponentTreeState) (c : Nat) (h : NonNegRefs s) :
    NonNegRefs (incremementReferenceForContextNode s c) := by
  intro p hp
  unfold incremementReferenceForContextNode at hp
  rcases mem_setAssoc _ _ _ _ hp with h1 | h1
  · exact h p h1
  · subst h1
    cases hl : lookupAssoc s.contextNodeReferences c with
    | none => simp [hl]
    | some r =>
        have hr0 : (0 : Int) ≤ r := by simpa using h (c, r) (lookupAssoc_mem _ _ _ hl)
        by_cases hr : r = 0
        · simp [hl, hr]
        · simp [hl, hr]
          exact Int.add_nonneg hr0 (by norm_num)

theorem nonNegRefs_decremement (s : ComponentTreeState) (c : Nat) (h : NonNegRefs s) :
    NonNegRefs (decremementReferenceForContextNode s c) := by
  intro p hp
  unfold decremementReferenceForContextNode at hp
  rcases mem_setAssoc _ _ _ _ hp with h1 | h1
  · exact h p h1
  · subst h1
    cases hl : lookupAssoc s.contextNodeReferences c with
    | none => simp [hl]
    | some r =>
        have hr0 : (0 : Int) ≤ r := by simpa using h (c, r) (lookupAssoc_mem _ _ _ hl)
        by_cases hr : r = 0
        · simp [hl, hr]
        · simp [hl, hr]
          have hpos : (0 : Int) < r := lt_of_le_of_ne hr0 (Ne.symm hr)
          have h1 : (1 : Int) ≤ r := by simpa using Int.lt_iff_add_one_le.mp hpos
          exact h1

/-! ## C9: bail-out message accumulation -/

/-- C9: annotating the same element with two distinct bail-out reasons, in
order, leaves a single stored BailOutReason message containing both reasons,
comma-separated, in call order. -/
theorem bailOutMessagesAccumulateInCallOrder (i : Nat) (t r p : RValue)
    (reason1 reason2 : String) :
    assignBailOutMessageElem (assignBailOutMessageElem (elemV i t r p none) reason1) reason2 =
      elemV i t r p
        (some ("Bail-out: " ++ reason1 ++ ", " ++ ("Bail-out: " ++ reason2))) := by
  rfl

/-! ## C2: queueing optimized closures -/

/-- C2 counterexample: with the optimizeNestedFunctions flag enabled, calling
_queueOptimizedClosure twice with the same function identity appends two
records to nestedOptimizedClosures, not at most one. -/
theorem queueOptimizedClosureNotIdempotent :
    configFixture.optimizeNestedFunctions = true ∧
    emptyRState.nestedOptimizedClosures.length = 0 ∧
    (queueOptimizedClosure configFixture 5 appNode none none
        (queueOptimizedClosure configFixture 5 appNode none none
          emptyRState)).nestedOptimizedClosures.length = 2 := by
  exact ⟨rfl, rfl, rfl⟩

/-- C2 amended: each call to _queueOptimizedClosure appends exactly one record
when the host-level optimizeNestedFunctions flag is enabled and none
otherwise, with no per-function deduplication inside the queueing function;
the closure memoization set alreadyEvaluatedNestedClosures is not consulted
or changed by queueing. -/
theorem queueOptimizedClosureAppendsPerCall (cfg : RConfig) (func : Nat)
    (evaluatedNode : EvaluatedNode) (componentType context : Option RValue) (s : RState) :
    (queueOptimizedClosure cfg func evaluatedNode componentType context s).nestedOptimizedClosures =
      (if cfg.optimizeNestedFunctions then
        s.nestedOptimizedClosures ++
          [{ evaluatedNode := evaluatedNode
             func := func
             nestedEffects := []
             componentType := componentType
             context := context }]
      else s.nestedOptimizedClosures) ∧
    (queueOptimizedClosure cfg func evaluatedNode componentType context s).alreadyEvaluatedNestedClosures =
      s.alreadyEvaluatedNestedClosures := by
  unfold queueOptimizedClosure
  by_cases h : cfg.optimizeNestedFunctions <;> simp [h]

/-! ## C3: the DoNotOptimize signal -/

/-- C3 counterexample: a DoNotOptimize signal reaching the tree-root failure
handler is escalated into a ReconcilerFatalError rather than recovered. -/
theorem doNotOptimizeEscalatesAtRoot :
    handleComponentTreeRootFailure
        (RError.doNotOptimize "__reactCompilerDoNotOptimize flag detected") appNode =
      RError.reconcilerFatalError
        "Failed to render React component root \"App\" due to __reactCompilerDoNotOptimize flag detected"
        appNode := by
  rfl

/-- C3 amended: a DoNotOptimize raised while resolving a non-root element is
always recoverable at that element boundary, returning the element unresolved
and verbatim with state and report node untouched; at the tree root it is
instead escalated into a ReconcilerFatalError naming the root. -/
theorem doNotOptimizeRecoverableAtElementsFatalAtRoot :
    (∀ (o : Oracles) (cfg : RConfig) (m : String) (reactElement : RValue)
        (evaluatedNode : EvaluatedNode) (bs : BranchStatusEnum) (s : RState),
        resolveComponentResolutionFailure o cfg (RError.doNotOptimize m) reactElement
            evaluatedNode bs s =
          (Except.ok reactElement, evaluatedNode, s)) ∧
    (∀ (m : String) (n : EvaluatedNode),
        handleComponentTreeRootFailure (RError.doNotOptimize m) n =
          RError.reconcilerFatalError
            ("Failed to render React component root \"" ++ n.name ++ "\" due to " ++ m) n) := by
  constructor
  · intro o cfg m reactElement evaluatedNode bs s; rfl
  · intro m n; rfl

/-! ## C7: root memoization -/

/-- C7: when a component identity is already in the root memoization table,
hasEvaluatedRootNode returns true and copies the memoized report children,
status and name onto the supplied report node, so the reported subtree is
identical to the memoized one; an absent identity returns false with the node
untouched. -/
theorem hasEvaluatedRootNodeCopiesMemoizedReport (s : RState) (componentType : Nat)
    (evaluateNode memoized : EvaluatedNode) :
    (lookupAssoc s.alreadyEvaluatedRootNodes componentType = some memoized →
      hasEvaluatedRootNode s componentType evaluateNode =
        (true, EvaluatedNode.node memoized.status memoized.name evaluateNode.message
          memoized.children)) ∧
    (lookupAssoc s.alreadyEvaluatedRootNodes componentType = none →
      hasEvaluatedRootNode s componentType evaluateNode = (false, evaluateNode)) := by
  constructor
  · intro h
    unfold hasEvaluatedRootNode
    rw [h]
  · intro h
    unfold hasEvaluatedRootNode
    rw [h]

/-- Witness for C7 at a concrete memoized table. -/
theorem hasEvaluatedRootNodeCopiesMemoizedReport_witness :
    hasEvaluatedRootNode
        { emptyRState with alreadyEvaluatedRootNodes :=
            [(1, EvaluatedNode.node NodeStatus.INLINED "Memo" "done" [appNode])] }
        1 appNode =
      (true, EvaluatedNode.node NodeStatus.INLINED "Memo" "" [appNode]) := by
  exact
    (hasEvaluatedRootNodeCopiesMemoizedReport
      { emptyRState with alreadyEvaluatedRootNodes :=
          [(1, EvaluatedNode.node NodeStatus.INLINED "Memo" "done" [appNode])] }
      1 appNode (EvaluatedNode.node NodeStatus.INLINED "Memo" "done" [appNode])).1 rfl

/-! ## C6: queueing new component trees -/

/-- C6: _queueNewComponentTree silently ignores a SymbolValue root (state and
node untouched); for a source function or abstract root it increments
deadEnds and appends a branch record exactly when the root has a resolvable
component identity that is not already memoized as a root; when the identity
is memoized, the memoized report fields are copied onto the node and nothing
is appended. -/
theorem queueNewComponentTreeSpec (o : Oracles) (evaluatedNode : EvaluatedNode)
    (props context : Option RValue) (s : RState) :
    (∀ id, queueNewComponentTree o (symbolV id) evaluatedNode props context s =
        (Except.ok (), evaluatedNode, s)) ∧
    (∀ rootValue, isFunctionOrAbstract rootValue = true →
      (queueNewComponentTree o rootValue evaluatedNode props context
            s).2.2.componentTreeState.deadEnds =
          s.componentTreeState.deadEnds + 1 ∧
      (o.componentTypeFromRoot rootValue = none →
        queueNewComponentTree o rootValue evaluatedNode props context s =
          (Except.ok (), evaluatedNode,
            { s with componentTreeState :=
                { s.componentTreeState with deadEnds := s.componentTreeState.deadEnds + 1 } })) ∧
      (∀ ct memoized, o.componentTypeFromRoot rootValue = some ct →
        lookupAssoc s.alreadyEvaluatedRootNodes ct = some memoized →
        queueNewComponentTree o rootValue evaluatedNode props context s =
          (Except.ok (),
            EvaluatedNode.node memoized.status memoized.name evaluatedNode.message
              memoized.children,
            { s with componentTreeState :=
                { s.componentTreeState with deadEnds := s.componentTreeState.deadEnds + 1 } })) ∧
      (∀ ct, o.componentTypeFromRoot rootValue = some ct →
        lookupAssoc s.alreadyEvaluatedRootNodes ct = none →
        queueNewComponentTree o rootValue evaluatedNode props context s =
          (Except.ok (), evaluatedNode,
            { s with
                componentTreeState :=
                  { s.componentTreeState with deadEnds := s.componentTreeState.deadEnds + 1 }
                branchedComponentTrees :=
                  s.branchedComponentTrees ++
                    [{ context := context
                       evaluatedNode := evaluatedNode
                       props := props
                       rootValue := rootValue }] }))) := by
  constructor
  · intro id; rfl
  · intro rootValue hq
    cases rootValue <;> simp [isFunctionOrAbstract] at hq <;>
      refine ⟨?_, ?_, ?_, ?_⟩
    case funcV.refine_1 =>
      unfold queueNewComponentTree
      cases h : o.componentTypeFromRoot _ with
      | none => simp [h]
      | some ct =>
          simp only [h]
          unfold hasEvaluatedRootNode
          cases hm : lookupAssoc s.alreadyEvaluatedRootNodes ct <;> simp [hm]
    case funcV.refine_2 =>
      intro h
      unfold queueNewComponentTree
      simp [h]
    case funcV.refine_3 =>
      intro ct memoized h hm
      unfold queueNewComponentTree
      simp only [h]
      unfold hasEvaluatedRootNode
      simp [hm]
    case funcV.refine_4 =>
      intro ct h hm
      unfold queueNewComponentTree
      simp only [h]
      unfold hasEvaluatedRootNode
      simp [hm]
    case abstractV.refine_1 =>
      unfold queueNewComponentTree
      cases h : o.componentTypeFromRoot _ with
      | none => simp [h]
      | some ct =>
          simp only [h]
          unfold hasEvaluatedRootNode
          cases hm : lookupAssoc s.alreadyEvaluatedRootNodes ct <;> simp [hm]
    case abstractV.refine_2 =>
      intro h
      unfold queueNewComponentTree
      simp [h]
    case abstractV.refine_3 =>
      intro ct memoized h hm
      unfold queueNewComponentTree
      simp only [h]
      unfold hasEvaluatedRootNode
      simp [hm]
    case abstractV.refine_4 =>
      intro ct h hm
      unfold queueNewComponentTree
      simp only [h]
      unfold hasEvaluatedRootNode
      simp [hm]

/-- Witness for C6: the symbol case and the append case at concrete inputs. -/
theorem queueNewComponentTreeSpec_witness :
    queueNewComponentTree oracleFixture (symbolV 4) appNode none none emptyRState =
      (Except.ok (), appNode, emptyRState) ∧
    queueNewComponentTree oracleFixture (funcV 3 true) appNode none none emptyRState =
      (Except.ok (), appNode,
        { emptyRState with
            componentTreeState := { createComponentTreeState with deadEnds := 1 }
            branchedComponentTrees :=
              [{ context := none
                 evaluatedNode := appNode
                 props := none
                 rootValue := funcV 3 true }] }) := by
  refine ⟨(queueNewComponentTreeSpec oracleFixture appNode none none emptyRState).1 4, ?_⟩
  have h :=
    ((queueNewComponentTreeSpec oracleFixture appNode none none emptyRState).2
        (funcV 3 true) rfl).2.2.2 3 rfl rfl
  exact h

/-! ## C4: complex class components at non-root positions -/

/-- The absorption guard of _resolveComplexClassComponent, as a proposition. -/
theorem complexAbsorptionEligible_iff (branchStatus : BranchStatusEnum) (s : RState)
    (componentType : Nat) :
    (branchStatus == BranchStatusEnum.NO_BRANCH &&
      s.componentTreeState.status == TreeStatus.SIMPLE &&
      (match lookupAssoc s.alreadyEvaluatedRootNodes componentType with
       | some evaluatedComplexNode => evaluatedComplexNode.status != NodeStatus.RENDER_PROPS
       | none => false)) = true ↔
    (branchStatus = BranchStatusEnum.NO_BRANCH ∧
      s.componentTreeState.status = TreeStatus.SIMPLE ∧
      ∃ memoized, lookupAssoc s.alreadyEvaluatedRootNodes componentType = some memoized ∧
        memoized.status ≠ NodeStatus.RENDER_PROPS) := by
  cases hm : lookupAssoc s.alreadyEvaluatedRootNodes componentType with
  | none => simp
  | some memoized =>
      simp only [Bool.and_eq_true, beq_iff_eq, bne_iff_ne]
      constructor
      · rintro ⟨⟨h1, h2⟩, h3⟩
        exact ⟨h1, h2, memoized, rfl, h3⟩
      · rintro ⟨h1, h2, m, hm2, h3⟩
        rw [Option.some_inj] at hm2
        subst hm2
        exact ⟨⟨h1, h2⟩, h3⟩

/-- C4: a complex class component resolved at a non-root position is absorbed
as the effective tree root (componentTreeState.componentType set to it)
exactly when the branch status is NO_BRANCH, the tree status is still SIMPLE,
and the component already has a memoized root node whose status is not
RENDER_PROPS; in every other non-root case it is queued as an independent new
root through _queueNewComponentTree and a NewComponentTreeBranch carrying the
NEW_TREE-tagged report node aborts the subtree. At the root, and whenever
resolution proceeds, the tree status is set to COMPLEX. -/
theorem resolveComplexClassComponentSpec (o : Oracles) (componentType : Nat)
    (branchStatus : BranchStatusEnum) (evaluatedNode : EvaluatedNode) (s : RState) :
    (branchStatus = BranchStatusEnum.ROOT →
      resolveComplexClassComponent o componentType branchStatus evaluatedNode s =
        (Except.ok (), evaluatedNode,
          { s with componentTreeState :=
              { s.componentTreeState with status := TreeStatus.COMPLEX } })) ∧
    (branchStatus ≠ BranchStatusEnum.ROOT →
      ((branchStatus = BranchStatusEnum.NO_BRANCH ∧
          s.componentTreeState.status = TreeStatus.SIMPLE ∧
          ∃ memoized,
            lookupAssoc s.alreadyEvaluatedRootNodes componentType = some memoized ∧
            memoized.status ≠ NodeStatus.RENDER_PROPS) →
        resolveComplexClassComponent o componentType branchStatus evaluatedNode s =
          (Except.ok (), evaluatedNode,
            { s with componentTreeState :=
                { s.componentTreeState with
                    componentType := some componentType
                    status := TreeStatus.COMPLEX } })) ∧
      (¬(branchStatus = BranchStatusEnum.NO_BRANCH ∧
          s.componentTreeState.status = TreeStatus.SIMPLE ∧
          ∃ memoized,
            lookupAssoc s.alreadyEvaluatedRootNodes componentType = some memoized ∧
            memoized.status ≠ NodeStatus.RENDER_PROPS) →
        resolveComplexClassComponent o componentType branchStatus evaluatedNode s =
          (Except.error (RError.newComponentTreeBranch
              (((queueNewComponentTree o (funcV componentType true) evaluatedNode none none
                  s).2.1).withStatus NodeStatus.NEW_TREE)),
            ((queueNewComponentTree o (funcV componentType true) evaluatedNode none none
                s).2.1).withStatus NodeStatus.NEW_TREE,
            (queueNewComponentTree o (funcV componentType true) evaluatedNode none none
                s).2.2))) ∧
    (∀ result, result = resolveComplexClassComponent o componentType branchStatus evaluatedNode s →
      isOkResult result.1 = true →
      result.2.2.componentTreeState.status = TreeStatus.COMPLEX) := by
  refine ⟨?_, ?_, ?_⟩
  · intro h
    subst h
    rfl
  · intro hne
    constructor
    · intro hcond
      have he := (complexAbsorptionEligible_iff branchStatus s componentType).mpr hcond
      unfold resolveComplexClassComponent
      have hb : (branchStatus != BranchStatusEnum.ROOT) = true := by
        simpa [bne_iff_ne] using hne
      rw [hb]
      simp only [if_true]
      rw [he]
      rfl
    · intro hcond
      have he : (branchStatus == BranchStatusEnum.NO_BRANCH &&
          s.componentTreeState.status == TreeStatus.SIMPLE &&
          (match lookupAssoc s.alreadyEvaluatedRootNodes componentType with
           | some evaluatedComplexNode => evaluatedComplexNode.status != NodeStatus.RENDER_PROPS
           | none => false)) = false := by
        rw [← Bool.not_eq_true]
        intro hcontra
        exact hcond ((complexAbsorptionEligible_iff branchStatus s componentType).mp hcontra)
      unfold resolveComplexClassComponent
      have hb : (branchStatus != BranchStatusEnum.ROOT) = true := by
        simpa [bne_iff_ne] using hne
      rw [hb]
      simp only [if_true]
      rw [he]
      simp only [Bool.false_eq_true, if_false]
  · intro result hres hok
    subst hres
    unfold resolveComplexClassComponent at hok ⊢
    by_cases hb : branchStatus = BranchStatusEnum.ROOT
    · subst hb
      rfl
    · have hb2 : (branchStatus != BranchStatusEnum.ROOT) = true := by
        simpa [bne_iff_ne] using hb
      rw [hb2] at hok ⊢
      simp only [if_true] at hok ⊢
      by_cases he : (branchStatus == BranchStatusEnum.NO_BRANCH &&
          s.componentTreeState.status == TreeStatus.SIMPLE &&
          (match lookupAssoc s.alreadyEvaluatedRootNodes componentType with
           | some evaluatedComplexNode => evaluatedComplexNode.status != NodeStatus.RENDER_PROPS
           | none => false)) = true
      · rw [he] at hok ⊢
        rfl
      · rw [Bool.not_eq_true] at he
        rw [he] at hok ⊢
        simp only [Bool.false_eq_true, if_false] at hok ⊢
        simp [isOkResult] at hok

/-- Witness for C4: absorption at a concrete eligible state. -/
theorem resolveComplexClassComponentSpec_witness :
    resolveComplexClassComponent oracleFixture 7 BranchStatusEnum.NO_BRANCH appNode
        { emptyRState with alreadyEvaluatedRootNodes :=
            [(7, EvaluatedNode.node NodeStatus.INLINED "Memo" "" [])] } =
      (Except.ok (), appNode,
        { { emptyRState with alreadyEvaluatedRootNodes :=
              [(7, EvaluatedNode.node NodeStatus.INLINED "Memo" "" [])] } with
            componentTreeState :=
              { createComponentTreeState with
                  componentType := some 7
                  status := TreeStatus.COMPLEX } }) := by
  exact
    ((resolveComplexClassComponentSpec oracleFixture 7 BranchStatusEnum.NO_BRANCH appNode
          { emptyRState with alreadyEvaluatedRootNodes :=
              [(7, EvaluatedNode.node NodeStatus.INLINED "Memo" "" [])] }).2.1
        (by decide)).1
      ⟨rfl, rfl, EvaluatedNode.node NodeStatus.INLINED "Memo" "" [], rfl, by decide⟩

/-! ## C1: context reference counting in the provider -/

/-- C1 counterexample: when an error escapes while resolving the children of
a context provider, _resolveContextProviderComponent exits without the
paired decrement or value restore: the reference count of context 2 is left
at 1 (it was effectively 0 before the call) and the pushed value 1 is left
as the currentValue in place of the previous value 7. -/
theorem contextProviderReferenceLeakOnError :
    effectiveRef stateWithContext.componentTreeState 2 = 0 ∧
    lookupAssoc stateWithContext.contextCurrentValues 2 = some (numV 7) ∧
    isOkResult (resolveContextProviderComponent configFixture resolveChildrenFail
        providerElement appNode stateWithContext).1 = false ∧
    effectiveRef (resolveContextProviderComponent configFixture resolveChildrenFail
        providerElement appNode stateWithContext).2.2.componentTreeState 2 = 1 ∧
    lookupAssoc (resolveContextProviderComponent configFixture resolveChildrenFail
        providerElement appNode stateWithContext).2.2.contextCurrentValues 2 =
      some (numV 1) := by
  exact ⟨rfl, rfl, rfl, rfl, rfl⟩

/-- Pairing of increment and decrement on the successful paths of
_resolveContextProviderComponent: when the children resolution succeeds and
itself leaves the reference count and currentValue binding of the provider
context as it found them, the function returns normally with the effective
reference count restored to its pre-call value and the previous currentValue
written back. -/
theorem contextProviderRefCountPairingOnSuccess
    (cfg : RConfig)
    (resolveHostChildren : RValue → EvaluatedNode → RState →
      Except RError RValue × EvaluatedNode × RState)
    (eid tid cid : Nat) (tprops cprops : List (String × RValue))
    (refv propsv : RValue) (reason : Option String)
    (evaluatedNode : EvaluatedNode) (s : RState) (v0 : RValue)
    (hctx : lookupProp tprops "context" = some (objV cid cprops))
    (hcv : lookupAssoc s.contextCurrentValues cid = some v0)
    (hNN : 0 ≤ effectiveRef s.componentTreeState cid)
    (hchild : ∀ el n st, ∃ v n2 st2,
      resolveHostChildren el n st = (Except.ok v, n2, st2) ∧
      lookupAssoc st2.contextCurrentValues cid = lookupAssoc st.contextCurrentValues cid ∧
      lookupAssoc st2.componentTreeState.contextNodeReferences cid =
        lookupAssoc st.componentTreeState.contextNodeReferences cid ∧
      ((getProp v "props").isObjectValue || (getProp v "props").isAbstractObjectValue) = true) :
    isOkResult (resolveContextProviderComponent cfg resolveHostChildren
        (elemV eid (objV tid tprops) refv propsv reason) evaluatedNode s).1 = true ∧
    effectiveRef (resolveContextProviderComponent cfg resolveHostChildren
        (elemV eid (objV tid tprops) refv propsv reason) evaluatedNode
        s).2.2.componentTreeState cid = effectiveRef s.componentTreeState cid ∧
    lookupAssoc (resolveContextProviderComponent cfg resolveHostChildren
        (elemV eid (objV tid tprops) refv propsv reason) evaluatedNode
        s).2.2.contextCurrentValues cid = some v0 := by
  have hgc : getProp (objV tid tprops) "context" = objV cid cprops := by
    simp [getProp, hctx]
  have hT : ((RValue.objV tid tprops).isObjectValue || (RValue.objV tid tprops).isAbstractObjectValue) = true := rfl
  have hC : ((RValue.objV cid cprops).isObjectValue || (RValue.objV cid cprops).isAbstractObjectValue) = true := rfl
  simp only [resolveContextProviderComponent]
  rw [show getProp (elemV eid (objV tid tprops) refv propsv reason) "type" = objV tid tprops from rfl]
  rw [show getProp (elemV eid (objV tid tprops) refv propsv reason) "props" = propsv from rfl]
  rw [hgc]
  simp only [hT, hC, Bool.not_true, Bool.false_eq_true, if_false, RValue.refKey]
  simp only [getContextCurrentValue, RValue.refKey]
  rw [show lookupAssoc
      ({ componentTreeState := s.componentTreeState, alreadyEvaluatedRootNodes := s.alreadyEvaluatedRootNodes,
         alreadyEvaluatedNestedClosures := s.alreadyEvaluatedNestedClosures,
         nestedOptimizedClosures := s.nestedOptimizedClosures, branchedComponentTrees := s.branchedComponentTrees,
         contextCurrentValues := s.contextCurrentValues, inlinedComponents := s.inlinedComponents,
         componentsEvaluated := s.componentsEvaluated + 1 } : RState).contextCurrentValues cid = some v0 from hcv]
  simp only [Option.getD_some]
  -- the value of the reference count written by the increment
  have hinc := incremementReference_lookup s.componentTreeState cid
  by_cases hP : (propsv.isObjectValue || propsv.isAbstractObjectValue) = true
  · simp only [hP, if_true]
    simp only [setContextCurrentValue]
    simp only [hcv, Option.isSome_some, if_true]
    by_cases hF : (cfg.firstRenderOnly && propsv.isPlainObject) = true
    · simp only [hF, if_true]
      split
      case _ e n2 st2 heq =>
        obtain ⟨v, n2x, st2x, hcall, h1, h2, h3⟩ := hchild _ _ _
        rw [heq] at hcall
        simp at hcall
      case _ v2 n2 st2 heq =>
        obtain ⟨v, n2x, st2x, hcall, hpcv, hpref, hvprops⟩ := hchild _ _ _
        rw [heq] at hcall
        simp only [Prod.mk.injEq, Except.ok.injEq] at hcall
        obtain ⟨hv, hn2, hst2⟩ := hcall
        subst hv
        subst hn2
        subst hst2
        simp only at hpcv hpref
        have hpcv2 : lookupAssoc st2.contextCurrentValues cid =
            some (getProp propsv "value") := by
          rw [hpcv]
          exact lookupAssoc_setAssoc_self _ _ _
        have hpref2 : lookupAssoc st2.componentTreeState.contextNodeReferences cid =
            some (if effectiveRef s.componentTreeState cid = 0 then 1
              else effectiveRef s.componentTreeState cid + 1) := by
          rw [hpref]
          exact hinc
        simp only [hvprops, Bool.not_true, Bool.false_eq_true, if_false]
        simp only [setContextCurrentValue, hpcv2, Option.isSome_some, if_true]
        have hdec := decremementReference_lookup
          ({ st2 with contextCurrentValues := setAssoc st2.contextCurrentValues cid v0 } :
            RState).componentTreeState cid
        have heff2 : effectiveRef st2.componentTreeState cid =
            (if effectiveRef s.componentTreeState cid = 0 then 1
              else effectiveRef s.componentTreeState cid + 1) := by
          unfold effectiveRef
          rw [hpref2]
          rfl
        have hfinal : lookupAssoc
            (decremementReferenceForContextNode st2.componentTreeState cid).contextNodeReferences
            cid = some (effectiveRef s.componentTreeState cid) := by
          rw [decremementReference_lookup]
          rw [heff2]
          by_cases h0 : effectiveRef s.componentTreeState cid = 0
          · simp [h0]
          · simp only [if_neg h0]
            have hne : effectiveRef s.componentTreeState cid + 1 ≠ 0 := by
              intro hc
              have : effectiveRef s.componentTreeState cid = -1 := by linarith
              rw [this] at hNN
              norm_num at hNN
            simp only [if_neg hne]
            congr 1
            ring
        split
        · refine ⟨rfl, ?_, ?_⟩
          · unfold effectiveRef
            simp only
            rw [hfinal]
            rfl
          · simp only
            exact lookupAssoc_setAssoc_self _ _ _
        · refine ⟨rfl, ?_, ?_⟩
          · unfold effectiveRef
            simp only
            rw [hfinal]
            rfl
          · simp only
            exact lookupAssoc_setAssoc_self _ _ _
    · simp only [Bool.not_eq_true] at hF
      simp only [hF, Bool.false_eq_true, if_false]
      split
      case _ e n2 st2 heq =>
        obtain ⟨v, n2x, st2x, hcall, h1, h2, h3⟩ := hchild _ _ _
        rw [heq] at hcall
        simp at hcall
      case _ v2 n2 st2 heq =>
        obtain ⟨v, n2x, st2x, hcall, hpcv, hpref, hvprops⟩ := hchild _ _ _
        rw [heq] at hcall
        simp only [Prod.mk.injEq, Except.ok.injEq] at hcall
        obtain ⟨hv, hn2, hst2⟩ := hcall
        subst hv
        subst hn2
        subst hst2
        simp only at hpcv hpref
        have hpcv2 : lookupAssoc st2.contextCurrentValues cid =
            some (getProp propsv "value") := by
          rw [hpcv]
          exact lookupAssoc_setAssoc_self _ _ _
        have hpref2 : lookupAssoc st2.componentTreeState.contextNodeReferences cid =
            some (if effectiveRef s.componentTreeState cid = 0 then 1
              else effectiveRef s.componentTreeState cid + 1) := by
          rw [hpref]
          exact hinc
        simp only [setContextCurrentValue, hpcv2, Option.isSome_some, if_true]
        have heff2 : effectiveRef st2.componentTreeState cid =
            (if effectiveRef s.componentTreeState cid = 0 then 1
              else effectiveRef s.componentTreeState cid + 1) := by
          unfold effectiveRef
          rw [hpref2]
          rfl
        have hfinal : lookupAssoc
            (decremementReferenceForContextNode st2.componentTreeState cid).contextNodeReferences
            cid = some (effectiveRef s.componentTreeState cid) := by
          rw [decremementReference_lookup]
          rw [heff2]
          by_cases h0 : effectiveRef s.componentTreeState cid = 0
          · simp [h0]
          · simp only [if_neg h0]
            have hne : effectiveRef s.componentTreeState cid + 1 ≠ 0 := by
              intro hc
              have : effectiveRef s.componentTreeState cid = -1 := by linarith
              rw [this] at hNN
              norm_num at hNN
            simp only [if_neg hne]
            congr 1
            ring
        refine ⟨rfl, ?_, ?_⟩
        · unfold effectiveRef
          try simp only
          rw [hfinal]
          rfl
        · try simp only
          exact lookupAssoc_setAssoc_self _ _ _
  · simp only [Bool.not_eq_true] at hP
    simp only [hP, Bool.false_eq_true, if_false]
    have hplain : propsv.isPlainObject = false := by
      cases propsv <;>
        simp_all [RValue.isPlainObject, RValue.isObjectValue, RValue.isAbstractObjectValue]
    simp only [hplain, Bool.and_false, Bool.false_eq_true, if_false]
    split
    case _ e n2 st2 heq =>
      obtain ⟨v, n2x, st2x, hcall, h1, h2, h3⟩ := hchild _ _ _
      rw [heq] at hcall
      simp at hcall
    case _ v2 n2 st2 heq =>
      obtain ⟨v, n2x, st2x, hcall, hpcv, hpref, hvprops⟩ := hchild _ _ _
      rw [heq] at hcall
      simp only [Prod.mk.injEq, Except.ok.injEq] at hcall
      obtain ⟨hv, hn2, hst2⟩ := hcall
      subst hv
      subst hn2
      subst hst2
      simp only at hpcv hpref
      have hpcv2 : lookupAssoc st2.contextCurrentValues cid = some v0 := by
        rw [hpcv]
        exact hcv
      have hpref2 : lookupAssoc st2.componentTreeState.contextNodeReferences cid =
          some (if effectiveRef s.componentTreeState cid = 0 then 1
            else effectiveRef s.componentTreeState cid + 1) := by
        rw [hpref]
        exact hinc
      simp only [setContextCurrentValue, hpcv2, Option.isSome_some, if_true]
      have heff2 : effectiveRef st2.componentTreeState cid =
          (if effectiveRef s.componentTreeState cid = 0 then 1
            else effectiveRef s.componentTreeState cid + 1) := by
        unfold effectiveRef
        rw [hpref2]
        rfl
      have hfinal : lookupAssoc
          (decremementReferenceForContextNode st2.componentTreeState cid).contextNodeReferences
          cid = some (effectiveRef s.componentTreeState cid) := by
        rw [decremementReference_lookup]
        rw [heff2]
        by_cases h0 : effectiveRef s.componentTreeState cid = 0
        · simp [h0]
        · simp only [if_neg h0]
          have hne : effectiveRef s.componentTreeState cid + 1 ≠ 0 := by
            intro hc
            have : effectiveRef s.componentTreeState cid = -1 := by linarith
            rw [this] at hNN
            norm_num at hNN
          simp only [if_neg hne]
          congr 1
          ring
      refine ⟨rfl, ?_, ?_⟩
      · unfold effectiveRef
        try simp only
        rw [hfinal]
        rfl
      · try simp only
        exact lookupAssoc_setAssoc_self _ _ _

/-- C1 amended: context reference counts are non-negative at every point
(each increment or decrement preserves non-negativity, since the decrement
clamps at zero), and on every normal return of
_resolveContextProviderComponent the increment/decrement and value
push/restore are strictly paired, so the effective count and currentValue of
the provider context return to their pre-call values. When an error escapes
while resolving the children of the provider, no decrement or restore is
performed and the count remains one above its pre-call value (see the
counterexample). -/
theorem contextProviderReferenceDiscipline :
    (∀ (cfg : RConfig)
      (resolveHostChildren : RValue → EvaluatedNode → RState →
        Except RError RValue × EvaluatedNode × RState)
      (eid tid cid : Nat) (tprops cprops : List (String × RValue))
      (refv propsv : RValue) (reason : Option String)
      (evaluatedNode : EvaluatedNode) (s : RState) (v0 : RValue),
      lookupProp tprops "context" = some (objV cid cprops) →
      lookupAssoc s.contextCurrentValues cid = some v0 →
      0 ≤ effectiveRef s.componentTreeState cid →
      (∀ el n st, ∃ v n2 st2,
        resolveHostChildren el n st = (Except.ok v, n2, st2) ∧
        lookupAssoc st2.contextCurrentValues cid = lookupAssoc st.contextCurrentValues cid ∧
        lookupAssoc st2.componentTreeState.contextNodeReferences cid =
          lookupAssoc st.componentTreeState.contextNodeReferences cid ∧
        ((getProp v "props").isObjectValue || (getProp v "props").isAbstractObjectValue) = true) →
      isOkResult (resolveContextProviderComponent cfg resolveHostChildren
          (elemV eid (objV tid tprops) refv propsv reason) evaluatedNode s).1 = true ∧
      effectiveRef (resolveContextProviderComponent cfg resolveHostChildren
          (elemV eid (objV tid tprops) refv propsv reason) evaluatedNode
          s).2.2.componentTreeState cid = effectiveRef s.componentTreeState cid ∧
      lookupAssoc (resolveContextProviderComponent cfg resolveHostChildren
          (elemV eid (objV tid tprops) refv propsv reason) evaluatedNode
          s).2.2.contextCurrentValues cid = some v0) ∧
    (∀ (st : ComponentTreeState) (c : Nat), NonNegRefs st →
      NonNegRefs (incremementReferenceForContextNode st c) ∧
      NonNegRefs (decremementReferenceForContextNode st c)) := by
  constructor
  · intro cfg resolveHostChildren eid tid cid tprops cprops refv propsv reason
      evaluatedNode s v0 hctx hcv hNN hchild
    exact contextProviderRefCountPairingOnSuccess cfg resolveHostChildren eid tid cid
      tprops cprops refv propsv reason evaluatedNode s v0 hctx hcv hNN hchild
  · intro st c h
    exact ⟨nonNegRefs_incremement st c h, nonNegRefs_decremement st c h⟩

/-- Witness for C1 at a concrete provider fold with a successful children
resolution: the count for context 2 is restored to its pre-call effective
value 0 and currentValue 7 is written back. -/
theorem contextProviderReferenceDiscipline_witness :
    isOkResult (resolveContextProviderComponent configFixture resolveChildrenConst
        providerElement appNode stateWithContext).1 = true ∧
    effectiveRef (resolveContextProviderComponent configFixture resolveChildrenConst
        providerElement appNode stateWithContext).2.2.componentTreeState 2 =
      effectiveRef stateWithContext.componentTreeState 2 ∧
    lookupAssoc (resolveContextProviderComponent configFixture resolveChildrenConst
        providerElement appNode stateWithContext).2.2.contextCurrentValues 2 =
      some (numV 7) := by
  exact contextProviderReferenceDiscipline.1 configFixture resolveChildrenConst
    0 1 2 [("context", objV 2 [])] [] nullV
    (objV 3 [("value", numV 1), ("children", strV "kid")]) none appNode
    stateWithContext (numV 7) rfl rfl (by decide)
    (fun el n st =>
      ⟨elemV 0 (objV 1 [("context", objV 2 [])]) nullV
          (objV 3 [("value", numV 1), ("children", strV "kid")]) none,
        n, st, rfl, rfl, rfl, rfl⟩)

/-! ## C5: provider elision in first-render-only mode -/

/-- C5 amended: for a provider whose props value is a concrete object, in
first-render-only mode the provider is elided (only the resolved children
returned, report child INLINED, inlined counter bumped) exactly when deadEnds
is zero after resolving its children, and otherwise (and always outside
first-render-only mode) the resolved provider element is returned intact with
the previous currentValue restored. Elision never happens when the props
value is not a concrete object (see the counterexample). -/
theorem providerElisionSpec
    (cfg : RConfig)
    (resolveHostChildren : RValue → EvaluatedNode → RState →
      Except RError RValue × EvaluatedNode × RState)
    (eid tid cid pid : Nat) (tprops cprops pprops : List (String × RValue))
    (refv : RValue) (reason : Option String)
    (evaluatedNode n2 : EvaluatedNode) (s st2 : RState) (v v0 : RValue)
    (hctx : lookupProp tprops "context" = some (objV cid cprops))
    (hcv : lookupAssoc s.contextCurrentValues cid = some v0)
    (hcall : resolveHostChildren (elemV eid (objV tid tprops) refv (objV pid pprops) reason)
        (createReactEvaluatedNode NodeStatus.NORMAL "Context.Provider")
        { componentTreeState := incremementReferenceForContextNode s.componentTreeState cid
          alreadyEvaluatedRootNodes := s.alreadyEvaluatedRootNodes
          alreadyEvaluatedNestedClosures := s.alreadyEvaluatedNestedClosures
          nestedOptimizedClosures := s.nestedOptimizedClosures
          branchedComponentTrees := s.branchedComponentTrees
          contextCurrentValues := setAssoc s.contextCurrentValues cid (getProp (objV pid pprops) "value")
          inlinedComponents := s.inlinedComponents
          componentsEvaluated := s.componentsEvaluated + 1 } = (Except.ok v, n2, st2))
    (hpcv : (lookupAssoc st2.contextCurrentValues cid).isSome = true)
    (hvprops : ((getProp v "props").isObjectValue ||
        (getProp v "props").isAbstractObjectValue) = true) :
    (cfg.firstRenderOnly = true →
      (st2.componentTreeState.deadEnds = 0 →
        resolveContextProviderComponent cfg resolveHostChildren
            (elemV eid (objV tid tprops) refv (objV pid pprops) reason) evaluatedNode s =
          (Except.ok (getProp (getProp v "props") "children"),
            evaluatedNode.pushChild (n2.withStatus NodeStatus.INLINED),
            { st2 with
                componentTreeState := decremementReferenceForContextNode st2.componentTreeState cid
                contextCurrentValues := setAssoc st2.contextCurrentValues cid v0
                inlinedComponents := st2.inlinedComponents + 1 })) ∧
      (st2.componentTreeState.deadEnds ≠ 0 →
        resolveContextProviderComponent cfg resolveHostChildren
            (elemV eid (objV tid tprops) refv (objV pid pprops) reason) evaluatedNode s =
          (Except.ok v, evaluatedNode.pushChild n2,
            { st2 with
                componentTreeState := decremementReferenceForContextNode st2.componentTreeState cid
                contextCurrentValues := setAssoc st2.contextCurrentValues cid v0 }))) ∧
    (cfg.firstRenderOnly = false →
      resolveContextProviderComponent cfg resolveHostChildren
          (elemV eid (objV tid tprops) refv (objV pid pprops) reason) evaluatedNode s =
        (Except.ok v, evaluatedNode.pushChild n2,
          { st2 with
              componentTreeState := decremementReferenceForContextNode st2.componentTreeState cid
              contextCurrentValues := setAssoc st2.contextCurrentValues cid v0 })) := by
  have hgc : getProp (objV tid tprops) "context" = objV cid cprops := by
    simp [getProp, hctx]
  have hT : ((RValue.objV tid tprops).isObjectValue || (RValue.objV tid tprops).isAbstractObjectValue) = true := rfl
  have hC : ((RValue.objV cid cprops).isObjectValue || (RValue.objV cid cprops).isAbstractObjectValue) = true := rfl
  have hPP : ((RValue.objV pid pprops).isObjectValue || (RValue.objV pid pprops).isAbstractObjectValue) = true := rfl
  simp only [resolveContextProviderComponent]
  rw [show getProp (elemV eid (objV tid tprops) refv (objV pid pprops) reason) "type" = objV tid tprops from rfl]
  rw [show getProp (elemV eid (objV tid tprops) refv (objV pid pprops) reason) "props" = objV pid pprops from rfl]
  rw [hgc]
  simp only [hT, hC, hPP, Bool.not_true, Bool.false_eq_true, if_false, if_true, RValue.refKey]
  simp only [getContextCurrentValue, RValue.refKey]
  rw [show lookupAssoc
      ({ componentTreeState := s.componentTreeState, alreadyEvaluatedRootNodes := s.alreadyEvaluatedRootNodes,
         alreadyEvaluatedNestedClosures := s.alreadyEvaluatedNestedClosures,
         nestedOptimizedClosures := s.nestedOptimizedClosures, branchedComponentTrees := s.branchedComponentTrees,
         contextCurrentValues := s.contextCurrentValues, inlinedComponents := s.inlinedComponents,
         componentsEvaluated := s.componentsEvaluated + 1 } : RState).contextCurrentValues cid = some v0 from hcv]
  simp only [Option.getD_some]
  simp only [setContextCurrentValue]
  simp only [hcv, Option.isSome_some, if_true]
  rw [hcall]
  simp only [hvprops, Bool.not_true, Bool.false_eq_true, if_false]
  simp only [setContextCurrentValue, hpcv, if_true]
  refine ⟨?_, ?_⟩
  · intro hFRO
    simp only [hFRO, RValue.isPlainObject, Bool.and_true, Bool.true_and, if_true]
    constructor
    · intro hD
      rw [decremementReference_deadEnds, if_pos hD]
    · intro hD
      rw [decremementReference_deadEnds, if_neg hD]
  · intro hFRO
    simp only [hFRO, RValue.isPlainObject, Bool.false_and, Bool.false_eq_true, if_false]

/-- C5 counterexample: in first-render-only mode with zero dead-ends, a
provider whose props value is an abstract object value is NOT elided: the
resolved provider element itself is returned, the report child stays NORMAL,
and no inlining is counted, refuting elision-iff-deadEnds-zero as stated. -/
theorem providerNotElidedOnAbstractProps :
    configFirstRender.firstRenderOnly = true ∧
    (resolveContextProviderComponent configFirstRender resolveChildrenOk
        providerElementAbstractProps appNode
        stateWithContext).2.2.componentTreeState.deadEnds = 0 ∧
    (resolveContextProviderComponent configFirstRender resolveChildrenOk
        providerElementAbstractProps appNode stateWithContext).1 =
      Except.ok providerElementAbstractProps ∧
    (resolveContextProviderComponent configFirstRender resolveChildrenOk
        providerElementAbstractProps appNode stateWithContext).2.2.inlinedComponents = 0 ∧
    (resolveContextProviderComponent configFirstRender resolveChildrenOk
        providerElementAbstractProps appNode stateWithContext).2.1 =
      appNode.pushChild (createReactEvaluatedNode NodeStatus.NORMAL "Context.Provider") := by
  exact ⟨rfl, rfl, rfl, rfl, rfl⟩

/-- Witness for C5 at a concrete elidable provider: the fold returns only the
resolved children value. -/
theorem providerElisionSpec_witness :
    (resolveContextProviderComponent configFirstRender resolveChildrenConst
        providerElement appNode stateWithContext).1 = Except.ok (strV "kid") := by
  have h :=
    ((providerElisionSpec configFirstRender resolveChildrenConst 0 1 2 3
          [("context", objV 2 [])] [] [("value", numV 1), ("children", strV "kid")]
          nullV none appNode (createReactEvaluatedNode NodeStatus.NORMAL "Context.Provider")
          stateWithContext
          { componentTreeState :=
              incremementReferenceForContextNode stateWithContext.componentTreeState 2
            alreadyEvaluatedRootNodes := stateWithContext.alreadyEvaluatedRootNodes
            alreadyEvaluatedNestedClosures := stateWithContext.alreadyEvaluatedNestedClosures
            nestedOptimizedClosures := stateWithContext.nestedOptimizedClosures
            branchedComponentTrees := stateWithContext.branchedComponentTrees
            contextCurrentValues := setAssoc stateWithContext.contextCurrentValues 2
              (getProp (objV 3 [("value", numV 1), ("children", strV "kid")]) "value")
            inlinedComponents := stateWithContext.inlinedComponents
            componentsEvaluated := stateWithContext.componentsEvaluated + 1 }
          (elemV 0 (objV 1 [("context", objV 2 [])]) nullV
            (objV 3 [("value", numV 1), ("children", strV "kid")]) none)
          (numV 7) rfl rfl rfl rfl rfl).1 rfl).1 rfl
  have helem : providerElement =
      elemV 0 (objV 1 [("context", objV 2 [])]) nullV
        (objV 3 [("value", numV 1), ("children", strV "kid")]) none := rfl
  rw [helem, h]
  rfl

/-! ## C8: deadEnds monotonicity -/

theorem applyCStateOp_deadEnds_mono (op : CStateOp) (s : ComponentTreeState) :
    s.deadEnds ≤ (applyCStateOp op s).deadEnds := by
  cases op <;>
    simp [applyCStateOp, incremementReferenceForContextNode,
      decremementReferenceForContextNode, Nat.le_succ]

theorem queueNewComponentTree_deadEnds_mono (o : Oracles) (rootValue : RValue)
    (n : EvaluatedNode) (p c : Option RValue) (s : RState) :
    s.componentTreeState.deadEnds ≤
      (queueNewComponentTree o rootValue n p c s).2.2.componentTreeState.deadEnds := by
  unfold queueNewComponentTree
  cases rootValue <;> simp
  case funcV =>
    cases h : o.componentTypeFromRoot _ with
    | none => simp [h, Nat.le_succ]
    | some ct =>
        simp only [h]
        unfold hasEvaluatedRootNode
        cases hm : lookupAssoc s.alreadyEvaluatedRootNodes ct <;> simp [hm, Nat.le_succ]
  case abstractV =>
    cases h : o.componentTypeFromRoot _ with
    | none => simp [h, Nat.le_succ]
    | some ct =>
        simp only [h]
        unfold hasEvaluatedRootNode
        cases hm : lookupAssoc s.alreadyEvaluatedRootNodes ct <;> simp [hm, Nat.le_succ]

theorem queueOptimizedClosure_deadEnds_eq (cfg : RConfig) (f : Nat) (n : EvaluatedNode)
    (ct cx : Option RValue) (s : RState) :
    (queueOptimizedClosure cfg f n ct cx s).componentTreeState.deadEnds =
      s.componentTreeState.deadEnds := by
  unfold queueOptimizedClosure
  by_cases h : cfg.optimizeNestedFunctions <;> simp [h]

theorem findReactComponentTreesFunc_deadEnds_mono (o : Oracles) (cfg : RConfig)
    (v : RValue) (isClass : Bool) (n : EvaluatedNode) (tfa : TreatFunctionsAs)
    (ct cx : Option RValue) (s : RState) :
    s.componentTreeState.deadEnds ≤
      (findReactComponentTreesFunc o cfg v isClass n tfa ct cx s).2.2.componentTreeState.deadEnds := by
  cases tfa <;> cases isClass <;> cases ct <;> cases cx <;>
    dsimp only [findReactComponentTreesFunc] <;>
    first
      | exact le_refl _
      | exact le_of_eq (queueOptimizedClosure_deadEnds_eq _ _ _ _ _ _).symm
      | (rcases hqr : queueNewComponentTree o v
            (createReactEvaluatedNode NodeStatus.NEW_TREE (o.componentName v)) none none s
          with ⟨e, n3, s3⟩
         have h2 := queueNewComponentTree_deadEnds_mono o v
           (createReactEvaluatedNode NodeStatus.NEW_TREE (o.componentName v)) none none s
         rw [hqr] at h2
         exact h2)

mutual

theorem findReactComponentTrees_deadEnds_mono (o : Oracles) (cfg : RConfig) (v : RValue)
    (n : EvaluatedNode) (tfa : TreatFunctionsAs) (ct cx : Option RValue) (s : RState) :
    s.componentTreeState.deadEnds ≤
      (findReactComponentTrees o cfg v n tfa ct cx s).2.2.componentTreeState.deadEnds := by
  cases v with
  | abstractV id isObj args =>
      dsimp only [findReactComponentTrees]
      by_cases h : args.length > 0
      · rw [if_pos h]
        exact findReactComponentTreesList_deadEnds_mono o cfg args n tfa ct cx s
      · rw [if_neg h]
        exact Nat.le_succ _
  | funcV id isClass =>
      dsimp only [findReactComponentTrees]
      exact findReactComponentTreesFunc_deadEnds_mono o cfg (funcV id isClass) isClass n tfa ct cx s
  | boundFuncV id isClass =>
      dsimp only [findReactComponentTrees]
      exact findReactComponentTreesFunc_deadEnds_mono o cfg (boundFuncV id isClass) isClass n tfa ct cx s
  | elemV id typeV refV propsV reason =>
      dsimp only [findReactComponentTrees]
      by_cases hg : (valueIsKnownReactAbstraction o typeV || RValue.isSourceFunction typeV) = true
      · rw [if_pos hg]
        rcases hqr : queueNewComponentTree o typeV
            (createReactEvaluatedNode NodeStatus.NEW_TREE (o.componentName typeV)) none none s
          with ⟨e, n3, s3⟩
        have h1 := queueNewComponentTree_deadEnds_mono o typeV
          (createReactEvaluatedNode NodeStatus.NEW_TREE (o.componentName typeV)) none none s
        rw [hqr] at h1
        cases e with
        | error err => exact h1
        | ok u =>
            dsimp only
            rcases hr : findReactComponentTrees o cfg refV (n.pushChild n3) tfa ct cx s3
              with ⟨e2, n4, s4⟩
            have h2 := findReactComponentTrees_deadEnds_mono o cfg refV (n.pushChild n3) tfa ct cx s3
            rw [hr] at h2
            cases e2 with
            | error err => exact le_trans h1 h2
            | ok u2 =>
                dsimp only
                have h3 := findReactComponentTrees_deadEnds_mono o cfg propsV n4 tfa ct cx s4
                exact le_trans h1 (le_trans h2 h3)
      · rw [if_neg hg]
        dsimp only
        rcases hr : findReactComponentTrees o cfg refV n tfa ct cx s with ⟨e2, n4, s4⟩
        have h2 := findReactComponentTrees_deadEnds_mono o cfg refV n tfa ct cx s
        rw [hr] at h2
        cases e2 with
        | error err => exact h2
        | ok u2 =>
            dsimp only
            have h3 := findReactComponentTrees_deadEnds_mono o cfg propsV n4 tfa ct cx s4
            exact le_trans h2 h3
  | objV id props =>
      dsimp only [findReactComponentTrees]
      exact findReactComponentTreesProps_deadEnds_mono o cfg props n tfa ct cx s
  | strV a => exact le_refl _
  | numV a => exact le_refl _
  | boolV a => exact le_refl _
  | nullV => exact le_refl _
  | undefinedV => exact le_refl _
  | symbolV a => exact le_refl _

theorem findReactComponentTreesList_deadEnds_mono (o : Oracles) (cfg : RConfig)
    (vs : List RValue) (n : EvaluatedNode) (tfa : TreatFunctionsAs) (ct cx : Option RValue)
    (s : RState) :
    s.componentTreeState.deadEnds ≤
      (findReactComponentTreesList o cfg vs n tfa ct cx s).2.2.componentTreeState.deadEnds := by
  cases vs with
  | nil => exact le_refl _
  | cons v rest =>
      dsimp only [findReactComponentTreesList]
      rcases hr : findReactComponentTrees o cfg v n tfa ct cx s with ⟨e2, n4, s4⟩
      have h2 := findReactComponentTrees_deadEnds_mono o cfg v n tfa ct cx s
      rw [hr] at h2
      cases e2 with
      | error err => exact h2
      | ok u2 =>
          dsimp only
          have h3 := findReactComponentTreesList_deadEnds_mono o cfg rest n4 tfa ct cx s4
          exact le_trans h2 h3

theorem findReactComponentTreesProps_deadEnds_mono (o : Oracles) (cfg : RConfig)
    (props : List (String × RValue)) (n : EvaluatedNode) (tfa : TreatFunctionsAs)
    (ct cx : Option RValue) (s : RState) :
    s.componentTreeState.deadEnds ≤
      (findReactComponentTreesProps o cfg props n tfa ct cx s).2.2.componentTreeState.deadEnds := by
  cases props with
  | nil => exact le_refl _
  | cons p rest =>
      obtain ⟨k, v⟩ := p
      dsimp only [findReactComponentTreesProps]
      rcases hr : findReactComponentTrees o cfg v n tfa ct cx s with ⟨e2, n4, s4⟩
      have h2 := findReactComponentTrees_deadEnds_mono o cfg v n tfa ct cx s
      rw [hr] at h2
      cases e2 with
      | error err => exact h2
      | ok u2 =>
          dsimp only
          have h3 := findReactComponentTreesProps_deadEnds_mono o cfg rest n4 tfa ct cx s4
          exact le_trans h2 h3

end

theorem resolveComplexClassComponent_deadEnds_mono (o : Oracles) (ct : Nat)
    (bs : BranchStatusEnum) (n : EvaluatedNode) (s : RState) :
    s.componentTreeState.deadEnds ≤
      (resolveComplexClassComponent o ct bs n s).2.2.componentTreeState.deadEnds := by
  dsimp only [resolveComplexClassComponent]
  by_cases hb : (bs != BranchStatusEnum.ROOT) = true
  · rw [if_pos hb]
    by_cases he : (bs == BranchStatusEnum.NO_BRANCH &&
        s.componentTreeState.status == TreeStatus.SIMPLE &&
        (match lookupAssoc s.alreadyEvaluatedRootNodes ct with
         | some evaluatedComplexNode => evaluatedComplexNode.status != NodeStatus.RENDER_PROPS
         | none => false)) = true
    · rw [if_pos he]
    · rw [if_neg he]
      rcases hqr : queueNewComponentTree o (funcV ct true) n none none s with ⟨e, n3, s3⟩
      have h1 := queueNewComponentTree_deadEnds_mono o (funcV ct true) n none none s
      rw [hqr] at h1
      exact h1
  · rw [if_neg hb]

theorem resolveReactElementUndefinedRender_deadEnds_mono (o : Oracles) (cfg : RConfig)
    (el : RValue) (n : EvaluatedNode) (bs : BranchStatusEnum) (s : RState) :
    s.componentTreeState.deadEnds ≤
      (resolveReactElementUndefinedRender o cfg el n bs s).2.2.componentTreeState.deadEnds := by
  dsimp only [resolveReactElementUndefinedRender]
  rcases hfr : findReactComponentTrees o cfg (getProp el "props")
      (n.pushChild ((createReactEvaluatedNode NodeStatus.BAIL_OUT
        (o.componentName (getProp el "type"))).withMessage
        "undefined was returned from render"))
      TreatFunctionsAs.NORMAL_FUNCTIONS none none s with ⟨e, n4, s4⟩
  have h1 := findReactComponentTrees_deadEnds_mono o cfg (getProp el "props")
    (n.pushChild ((createReactEvaluatedNode NodeStatus.BAIL_OUT
      (o.componentName (getProp el "type"))).withMessage
      "undefined was returned from render"))
    TreatFunctionsAs.NORMAL_FUNCTIONS none none s
  rw [hfr] at h1
  cases e with
  | error err => exact h1
  | ok u => exact h1

theorem resolveComponentResolutionFailure_deadEnds_mono (o : Oracles) (cfg : RConfig)
    (err : RError) (el : RValue) (n : EvaluatedNode) (bs : BranchStatusEnum) (s : RState) :
    s.componentTreeState.deadEnds ≤
      (resolveComponentResolutionFailure o cfg err el n bs s).2.2.componentTreeState.deadEnds := by
  cases err with
  | invariantViolation m => exact le_refl _
  | reconcilerFatalError m n2 => exact le_refl _
  | unsupportedSideEffect m => exact le_refl _
  | doNotOptimize m => exact le_refl _
  | jsCompletion m st => exact le_refl _
  | newComponentTreeBranch errNode =>
      dsimp only [resolveComponentResolutionFailure]
      rcases hfr : findReactComponentTrees o cfg (getProp el "props") n
          TreatFunctionsAs.NORMAL_FUNCTIONS none none s with ⟨e, n4, s4⟩
      have h1 := findReactComponentTrees_deadEnds_mono o cfg (getProp el "props") n
        TreatFunctionsAs.NORMAL_FUNCTIONS none none s
      rw [hfr] at h1
      cases e with
      | error e2 => exact h1
      | ok u => exact h1
  | expectedBailOut m =>
      dsimp only [resolveComponentResolutionFailure]
      rcases hqr : queueNewComponentTree o (getProp el "type")
          (createReactEvaluatedNode NodeStatus.BAIL_OUT (o.componentName (getProp el "type")))
          none none s with ⟨e, n3, s3⟩
      have h1 := queueNewComponentTree_deadEnds_mono o (getProp el "type")
        (createReactEvaluatedNode NodeStatus.BAIL_OUT (o.componentName (getProp el "type")))
        none none s
      rw [hqr] at h1
      cases e with
      | error e2 => exact h1
      | ok u =>
          dsimp only
          rcases hfr : findReactComponentTrees o cfg (getProp el "props")
              (n.pushChild (n3.withMessage m)) TreatFunctionsAs.NORMAL_FUNCTIONS none none s3
            with ⟨e2, n4, s4⟩
          have h2 := findReactComponentTrees_deadEnds_mono o cfg (getProp el "props")
            (n.pushChild (n3.withMessage m)) TreatFunctionsAs.NORMAL_FUNCTIONS none none s3
          rw [hfr] at h2
          cases e2 with
          | error e3 => exact le_trans h1 h2
          | ok u2 => exact le_trans h1 h2
  | fatalError m =>
      dsimp only [resolveComponentResolutionFailure]
      rcases hqr : queueNewComponentTree o (getProp el "type")
          (createReactEvaluatedNode NodeStatus.BAIL_OUT (o.componentName (getProp el "type")))
          none none s with ⟨e, n3, s3⟩
      have h1 := queueNewComponentTree_deadEnds_mono o (getProp el "type")
        (createReactEvaluatedNode NodeStatus.BAIL_OUT (o.componentName (getProp el "type")))
        none none s
      rw [hqr] at h1
      cases e with
      | error e2 => exact h1
      | ok u =>
          dsimp only
          rcases hfr : findReactComponentTrees o cfg (getProp el "props")
              (n.pushChild (n3.withMessage "evaluation failed"))
              TreatFunctionsAs.NORMAL_FUNCTIONS none none s3
            with ⟨e2, n4, s4⟩
          have h2 := findReactComponentTrees_deadEnds_mono o cfg (getProp el "props")
            (n.pushChild (n3.withMessage "evaluation failed"))
            TreatFunctionsAs.NORMAL_FUNCTIONS none none s3
          rw [hfr] at h2
          cases e2 with
          | error e3 => exact le_trans h1 h2
          | ok u2 => exact le_trans h1 h2
  | simpleClassBailOut =>
      dsimp only [resolveComponentResolutionFailure]
      rcases hqr : queueNewComponentTree o (getProp el "type")
          (createReactEvaluatedNode NodeStatus.BAIL_OUT (o.componentName (getProp el "type")))
          none none s with ⟨e, n3, s3⟩
      have h1 := queueNewComponentTree_deadEnds_mono o (getProp el "type")
        (createReactEvaluatedNode NodeStatus.BAIL_OUT (o.componentName (getProp el "type")))
        none none s
      rw [hqr] at h1
      cases e with
      | error e2 => exact h1
      | ok u =>
          dsimp only
          rcases hfr : findReactComponentTrees o cfg (getProp el "props")
              (n.pushChild (n3.withMessage "unknown error"))
              TreatFunctionsAs.NORMAL_FUNCTIONS none none s3
            with ⟨e2, n4, s4⟩
          have h2 := findReactComponentTrees_deadEnds_mono o cfg (getProp el "props")
            (n.pushChild (n3.withMessage "unknown error"))
            TreatFunctionsAs.NORMAL_FUNCTIONS none none s3
          rw [hfr] at h2
          cases e2 with
          | error e3 => exact le_trans h1 h2
          | ok u2 => exact le_trans h1 h2

/-- C8: within a fold, the deadEnds counter never decreases: every primitive
mutation the source applies to the ComponentTreeState leaves it unchanged or
increments it (and hence any sequence of them), and each modelled operation
of the Reconciler (queueing a new tree, queueing an optimized closure,
searching for component trees, resolving a complex class component, the
per-element failure recovery, and the undefined-render handler) yields a
state whose deadEnds is at least the input deadEnds. -/
theorem deadEndsNeverDecreases :
    (∀ (ops : List CStateOp) (s : ComponentTreeState),
      s.deadEnds ≤ (ops.foldl (fun t op => applyCStateOp op t) s).deadEnds) ∧
    (∀ (o : Oracles) (rootValue : RValue) (n : EvaluatedNode) (p c : Option RValue)
      (s : RState),
      s.componentTreeState.deadEnds ≤
        (queueNewComponentTree o rootValue n p c s).2.2.componentTreeState.deadEnds) ∧
    (∀ (cfg : RConfig) (f : Nat) (n : EvaluatedNode) (ct cx : Option RValue) (s : RState),
      (queueOptimizedClosure cfg f n ct cx s).componentTreeState.deadEnds =
        s.componentTreeState.deadEnds) ∧
    (∀ (o : Oracles) (cfg : RConfig) (v : RValue) (n : EvaluatedNode)
      (tfa : TreatFunctionsAs) (ct cx : Option RValue) (s : RState),
      s.componentTreeState.deadEnds ≤
        (findReactComponentTrees o cfg v n tfa ct cx s).2.2.componentTreeState.deadEnds) ∧
    (∀ (o : Oracles) (ct : Nat) (bs : BranchStatusEnum) (n : EvaluatedNode) (s : RState),
      s.componentTreeState.deadEnds ≤
        (resolveComplexClassComponent o ct bs n s).2.2.componentTreeState.deadEnds) ∧
    (∀ (o : Oracles) (cfg : RConfig) (err : RError) (el : RValue) (n : EvaluatedNode)
      (bs : BranchStatusEnum) (s : RState),
      s.componentTreeState.deadEnds ≤
        (resolveComponentResolutionFailure o cfg err el n bs s).2.2.componentTreeState.deadEnds) ∧
    (∀ (o : Oracles) (cfg : RConfig) (el : RValue) (n : EvaluatedNode)
      (bs : BranchStatusEnum) (s : RState),
      s.componentTreeState.deadEnds ≤
        (resolveReactElementUndefinedRender o cfg el n bs s).2.2.componentTreeState.deadEnds) := by
  refine ⟨?_, queueNewComponentTree_deadEnds_mono, queueOptimizedClosure_deadEnds_eq,
    findReactComponentTrees_deadEnds_mono, resolveComplexClassComponent_deadEnds_mono,
    resolveComponentResolutionFailure_deadEnds_mono,
    resolveReactElementUndefinedRender_deadEnds_mono⟩
  intro ops
  induction ops with
  | nil => intro s; exact le_refl _
  | cons op rest ih =>
      intro s
      exact le_trans (applyCStateOp_deadEnds_mono op s) (ih (applyCStateOp op s))

/-! ## C10: undefined returned from render -/

/-- C10: when the resolution of a composite element produces the undefined
value, the reconciler returns the original element unresolved and annotated
with the bail-out message about undefined being returned from render,
attaches a BAIL-OUT child report node named after the element type carrying
that message, and searches the element props for further nested component
trees (the resulting report node and state are exactly those produced by that
search); no error is raised provided the props search itself completes
without an internal invariant violation. -/
theorem undefinedRenderSpec (o : Oracles) (cfg : RConfig) (reactElement : RValue)
    (evaluatedNode n2 : EvaluatedNode) (bs : BranchStatusEnum) (s s2 : RState)
    (hfind : findReactComponentTrees o cfg (getProp reactElement "props")
        (evaluatedNode.pushChild ((createReactEvaluatedNode NodeStatus.BAIL_OUT
          (o.componentName (getProp reactElement "type"))).withMessage
          "undefined was returned from render"))
        TreatFunctionsAs.NORMAL_FUNCTIONS none none s = (Except.ok (), n2, s2)) :
    dispatchComponentStrategyResult o cfg (some undefinedV) reactElement evaluatedNode
        bs s =
      (Except.ok (assignBailOutMessageElem reactElement
          "undefined was returned from render"), n2, s2) := by
  dsimp only [dispatchComponentStrategyResult, resolveReactElementUndefinedRender]
  rw [hfind]

/-- Witness for C10 at a concrete element with empty object props. -/
theorem undefinedRenderSpec_witness :
    dispatchComponentStrategyResult oracleFixture configFixture (some undefinedV)
        (elemV 0 (funcV 3 false) nullV (objV 5 []) none) appNode
        BranchStatusEnum.NO_BRANCH emptyRState =
      (Except.ok (elemV 0 (funcV 3 false) nullV (objV 5 [])
          (some "Bail-out: undefined was returned from render")),
        appNode.pushChild (EvaluatedNode.node NodeStatus.BAIL_OUT "Component"
          "undefined was returned from render" []),
        emptyRState) := by
  have h := undefinedRenderSpec oracleFixture configFixture
    (elemV 0 (funcV 3 false) nullV (objV 5 []) none) appNode
    (appNode.pushChild ((createReactEvaluatedNode NodeStatus.BAIL_OUT
      (oracleFixture.componentName
        (getProp (elemV 0 (funcV 3 false) nullV (objV 5 []) none) "type"))).withMessage
      "undefined was returned from render"))
    BranchStatusEnum.NO_BRANCH emptyRState emptyRState rfl
  rw [h]
  rfl
